import Mathlib

/-!
# craftd: world registry, entity ids and the NBT chunk store

A shallow embedding of `src/protocols/survival/World.c` and of the chunk handlers of
`plugins/survival/persistence/nbt/main.c`, followed by the properties established about them.

Conventions of the embedding:

* C `int` and `SVEntityId` values are integers reduced to the 32-bit signed range after
  every arithmetic step (`wrapInt32`);
* objects referred to through pointers (players, worlds) carry an address, and the maps of a
  world store player addresses, as the C maps store `SVPlayer*`;
* an operation that does not return a result ends in `Except.error`: a failed `assert` aborts
  the process, a loop may still be running when the fuel given to it is spent, and indexing the
  global grids outside their allocation or writing past the end of a buffer is undefined
  behaviour in C.
-/

namespace Craftd

/-! ## Machine integers and formatted strings -/

/-- Two's-complement reduction of an integer to the range of a 32-bit signed `int`. -/
def wrapInt32 (v : Int) : Int :=
  (v + 2147483648) % 4294967296 - 2147483648

/-- Largest value of a 32-bit signed `int`. -/
def INT32_MAX : Int := 2147483647

/-- Decimal rendering of an integer as `printf` does for `%d` and `%i`. -/
def formatInt (v : Int) : String :=
  if v < 0 then "-" ++ String.mk (Nat.toDigits 10 (-v).toNat)
  else String.mk (Nat.toDigits 10 v.toNat)

/-- Value of a string of decimal digits read most significant digit first, continuing from
`acc`; the inverse of the digit rendering used by `formatInt`. -/
def decodeDigits (cs : List Char) (acc : Nat) : Nat :=
  cs.foldl (fun a c => 10 * a + (c.toNat - 48)) acc

/-! ## Containers -/

/-- Modelled from the spec: the `CDHash` container (string keys, unique) is implemented outside
the sources at hand; it is a finite sequence of key/value entries with at most one entry per key. -/
abbrev CDHash (α : Type) := List (String × α)

/-- Modelled from the spec: the `CDMap` container (integer keys, unique) is implemented outside
the sources at hand; it is a finite sequence of key/value entries with at most one entry per key. -/
abbrev CDMap (α : Type) := List (Int × α)

/-- Modelled from the spec: key membership test of a `CDHash`. -/
def CD_HashHasKey {α : Type} (self : CDHash α) (name : String) : Bool :=
  self.any (fun e => e.1 == name)

/-- Modelled from the spec: lookup in a `CDHash`; `none` stands for the `NULL` result. -/
def CD_HashGet {α : Type} (self : CDHash α) (name : String) : Option α :=
  (self.find? (fun e => e.1 == name)).map (fun e => e.2)

/-- Modelled from the spec: removal of a key from a `CDHash`; other entries are untouched. -/
def CD_HashDelete {α : Type} (self : CDHash α) (name : String) : CDHash α :=
  self.filter (fun e => !(e.1 == name))

/-- Modelled from the spec: insertion into a `CDHash`; an entry under the same key is replaced. -/
def CD_HashPut {α : Type} (self : CDHash α) (name : String) (value : α) : CDHash α :=
  (name, value) :: CD_HashDelete self name

/-- Modelled from the spec: lookup in a `CDMap`; `none` stands for the `NULL` result. -/
def CD_MapGet {α : Type} (self : CDMap α) (id : Int) : Option α :=
  (self.find? (fun e => e.1 == id)).map (fun e => e.2)

/-- Modelled from the spec: removal of a key from a `CDMap`; other entries are untouched. -/
def CD_MapDelete {α : Type} (self : CDMap α) (id : Int) : CDMap α :=
  self.filter (fun e => !(e.1 == id))

/-- Modelled from the spec: insertion into a `CDMap`; an entry under the same key is replaced. -/
def CD_MapPut {α : Type} (self : CDMap α) (id : Int) (value : α) : CDMap α :=
  (id, value) :: CD_MapDelete self id

/-! ## Data model -/

/-- A byte buffer, read by offset. Only offsets below the declared size of the buffer are
meaningful. -/
abbrev Buffer := Nat → Nat

/-- The C library `memcpy`: the first `n` bytes of `dst` are replaced by those of `src`. -/
def memcpy (dst src : Buffer) (n : Nat) : Buffer :=
  fun i => if i < n then src i else dst i

/-- Block position: three integers. -/
structure SVBlockPosition where
  x : Int
  y : Int
  z : Int
deriving DecidableEq, Repr

/-- Chunk position: two integers. -/
structure SVChunkPosition where
  x : Int
  z : Int
deriving DecidableEq, Repr

/-- A chunk: position and five fixed-size buffers (256, 32768, 16384, 16384, 16384 bytes). -/
structure SVChunk where
  position : SVChunkPosition
  heightMap : Buffer
  blocks : Buffer
  data : Buffer
  blockLight : Buffer
  skyLight : Buffer

/-- World error codes held in `ERROR(self)`. -/
inductive SVWorldError where
  | CDNull
  | SVWorldErrUsernameTaken
deriving DecidableEq, Repr

/-- World dimension kinds. -/
inductive SVWorldDimension where
  | SVWorldNormal
  | SVWorldHell
deriving DecidableEq, Repr

/-- A player object. `world` is the address of the owning world (`none` for `NULL`),
`entityId` is `player->entity.id` (0 = unassigned), `client` the connection handle. -/
structure SVPlayer where
  username : String
  world : Option Nat
  entityId : Int
  client : Nat
deriving DecidableEq, Repr

/-- A world. `addr` is the address of the object (what `player->world` is compared with);
`players` and `entities` hold player addresses; `chunks` is the chunk cache keyed by the
formatted coordinate. -/
structure SVWorld where
  addr : Nat
  name : String
  dimension : SVWorldDimension
  time : Nat
  spawnPosition : SVBlockPosition
  players : CDHash Nat
  entities : CDMap Nat
  chunks : CDHash SVChunk
  lastGeneratedEntityId : Int
  error : SVWorldError

/-! ## World.c -/

/-- `SV_CreateWorld`. `uninit` is the content `CD_malloc` left in the fields the function does
not assign (the spawn position); `dispatchCreate` is the effect of the handlers bound to
`World.create` (the identity when none is bound). -/
def SV_CreateWorld (dispatchCreate : SVWorld → SVWorld) (addr : Nat) (name : String)
    (uninit : SVBlockPosition) : SVWorld :=
  dispatchCreate
    { addr := addr
      name := name
      dimension := SVWorldDimension.SVWorldNormal
      time := 0
      spawnPosition := uninit
      players := []
      entities := []
      chunks := []
      lastGeneratedEntityId := 0
      error := SVWorldError.CDNull }

/-- `SV_WorldGenerateEntityId`: returns the id and the updated world. The typedef of
`SVEntityId` is in a protocol header outside the sources at hand; it is the 32-bit signed
integer of the wire protocol, so the increment is reduced by `wrapInt32`. -/
def SV_WorldGenerateEntityId (self : SVWorld) : Int × SVWorld :=
  let last :=
    if self.lastGeneratedEntityId ≠ 0 then wrapInt32 (self.lastGeneratedEntityId + 1) else 10
  (last, { self with lastGeneratedEntityId := last })

/-- The ids returned by `n` successive calls of `SV_WorldGenerateEntityId`, in call order. -/
def generatedIds : Nat → SVWorld → List Int
  | 0, _ => []
  | n + 1, w => (SV_WorldGenerateEntityId w).1 :: generatedIds n (SV_WorldGenerateEntityId w).2

/-- The world after `n` successive calls of `SV_WorldGenerateEntityId`. -/
def afterGeneratedIds : Nat → SVWorld → SVWorld
  | 0, w => w
  | n + 1, w => afterGeneratedIds n (SV_WorldGenerateEntityId w).2

/-- Why an operation ended without returning a result. -/
inductive Stop where
  /-- an `assert` failed and aborted the process -/
  | assertionFailed
  /-- the loop was still running when the fuel was spent -/
  | outOfFuel
  /-- a global grid was indexed at `[i][j]`, outside its allocation -/
  | outOfBounds (i j : Int)
  /-- `written` bytes were written into a buffer of `size` bytes, `size < written` -/
  | bufferOverflow (written size : Nat)
  /-- a `NULL` pointer was dereferenced, or a payload was read through the wrong member -/
  | invalidRead
deriving DecidableEq, Repr

/-- The player objects of the process, by address. -/
abbrev PlayerHeap := Nat → SVPlayer

/-- The state `SV_WorldAddPlayer` and `SV_WorldRemovePlayer` work on: one world and the player
objects it points to. -/
structure Registry where
  world : SVWorld
  heap : PlayerHeap

/-- The `do ... while` loop of `SV_WorldAddPlayer`: formats `baseUsername^count`, increments the
`int count`, and goes on while the formatted name is a key of `players`. One unit of fuel is
spent per iteration. -/
def renameLoop (players : CDHash Nat) (baseUsername : String) : Nat → Int → Except Stop String
  | 0, _ => Except.error Stop.outOfFuel
  | fuel + 1, count =>
    if CD_HashHasKey players (baseUsername ++ "^" ++ formatInt count) then
      renameLoop players baseUsername fuel (wrapInt32 (count + 1))
    else
      Except.ok (baseUsername ++ "^" ++ formatInt count)

/-- The tail of `SV_WorldAddPlayer` (lines 164-169): the player at address `player`, now named
`username`, gets its world pointer and a generated entity id and is put into both maps. -/
def registerPlayer (self : Registry) (player : Nat) (username : String) : Registry :=
  let gen := SV_WorldGenerateEntityId self.world
  { world :=
      { gen.2 with
        players := CD_HashPut gen.2.players username player
        entities := CD_MapPut gen.2.entities gen.1 player }
    heap := Function.update self.heap player
      { self.heap player with
        username := username
        world := some self.world.addr
        entityId := gen.1 } }

/-- `SV_WorldAddPlayer`. `standard` is `server->config->cache.game.protocol.standard`
(true: reject a taken username, false: rename); `fuel` bounds the iterations of the rename loop.
Returns the C return value and the new state. -/
def SV_WorldAddPlayer (standard : Bool) (fuel : Nat) (self : Registry) (player : Nat) :
    Except Stop (Bool × Registry) :=
  if (self.heap player).entityId ≠ 0 then Except.error Stop.assertionFailed
  else if CD_HashHasKey self.world.players (self.heap player).username then
    if standard then
      Except.ok (false,
        { self with world := { self.world with error := SVWorldError.SVWorldErrUsernameTaken } })
    else
      match renameLoop self.world.players (self.heap player).username fuel 1 with
      | Except.error e => Except.error e
      | Except.ok username => Except.ok (true, registerPlayer self player username)
  else
    Except.ok (true, registerPlayer self player (self.heap player).username)

/-- `SV_WorldRemovePlayer`. -/
def SV_WorldRemovePlayer (self : Registry) (player : Nat) : Except Stop Registry :=
  if (self.heap player).world ≠ some self.world.addr then Except.error Stop.assertionFailed
  else
    Except.ok
      { self with
        world :=
          { self.world with
            players := CD_HashDelete self.world.players (self.heap player).username
            entities := CD_MapDelete self.world.entities (self.heap player).entityId } }

/-- Successive `SV_WorldAddPlayer` calls, one per player address of the list, in list order.
Returns the C return values in call order and the final state. -/
def addPlayers (standard : Bool) (fuel : Nat) : List Nat → Registry →
    Except Stop (List Bool × Registry)
  | [], st => Except.ok ([], st)
  | p :: ps, st =>
    match SV_WorldAddPlayer standard fuel st p with
    | Except.error e => Except.error e
    | Except.ok (b, st1) =>
      match addPlayers standard fuel ps st1 with
      | Except.error e => Except.error e
      | Except.ok (bs, st2) => Except.ok (b :: bs, st2)

/-- The username expected for the `i`-th of several players joining as `base`: `base` itself
for the first, `base^i` afterwards. -/
def joinName (base : String) (i : Nat) : String :=
  if i = 0 then base else base ++ "^" ++ formatInt (i : Int)

/-- A world just made by `SV_CreateWorld` (no `World.create` handler bound) in a process where
every player object is unregistered and named `base`. -/
def freshRegistry (base : String) : Registry :=
  { world := SV_CreateWorld id 1 "world" ⟨0, 0, 0⟩
    heap := fun a => ⟨base, none, 0, a⟩ }

/-! ## Events, NBT trees and the chunk store of the NBT persistence plugin -/

/-- Status codes of event dispatch; `CDOk` is 0. -/
abbrev CDError := Nat

/-- The success status. -/
def CDOk : CDError := 0

/-- Modelled from the spec: the NBT tag tree of the codec, which is not among the sources: tag
kind, name and payload, a Compound or List owning its children (the two floating point kinds are
left out). -/
inductive NbtNode where
  | tagByte (name : String) (value : Int)
  | tagShort (name : String) (value : Int)
  | tagInt (name : String) (value : Int)
  | tagLong (name : String) (value : Int)
  | tagByteArray (name : String) (data : List Nat)
  | tagString (name : String) (value : String)
  | tagList (name : String) (items : List NbtNode)
  | tagCompound (name : String) (children : List NbtNode)
  | tagIntArray (name : String) (data : List Int)

/-- Name of a tag. -/
def NbtNode.name : NbtNode → String
  | NbtNode.tagByte n _ => n
  | NbtNode.tagShort n _ => n
  | NbtNode.tagInt n _ => n
  | NbtNode.tagLong n _ => n
  | NbtNode.tagByteArray n _ => n
  | NbtNode.tagString n _ => n
  | NbtNode.tagList n _ => n
  | NbtNode.tagCompound n _ => n
  | NbtNode.tagIntArray n _ => n

/-- The child of a Compound tag with the given name; `none` for an absent key or a tag that is
not a Compound. -/
def NbtNode.child (node : NbtNode) (name : String) : Option NbtNode :=
  match node with
  | NbtNode.tagCompound _ children => children.find? (fun c => c.name == name)
  | _ => none

/-- Modelled from the spec: `findByPath` of the codec walks nested Compound tags by name; a path
segment against a non-Compound node, or an absent key, yields `NotFound` (`none`). The path is
given as the names below the root. -/
def nbt_find_by_path (root : NbtNode) : List String → Option NbtNode
  | [] => some root
  | segment :: rest =>
    match root.child segment with
    | none => none
    | some c => nbt_find_by_path c rest

/-- Whether the tag under `.Level.<name>` is a byte array of exactly `size` bytes. -/
def hasLevelArray (root : NbtNode) (name : String) (size : Nat) : Bool :=
  match nbt_find_by_path root ["Level", name] with
  | some (NbtNode.tagByteArray _ data) => data.length == size
  | _ => false

/-- Modelled from the spec: `cdnbt_ValidChunk` is in a helper file that is not among the sources;
the structural validation requires a Compound "Level" with the five named byte-array tags of
exact expected lengths. -/
def cdnbt_ValidChunk (root : NbtNode) : Bool :=
  hasLevelArray root "HeightMap" 256 && hasLevelArray root "Blocks" 32768 &&
    hasLevelArray root "Data" 16384 && hasLevelArray root "BlockLight" 16384 &&
    hasLevelArray root "SkyLight" 16384

/-- What `nbt_parse_path` left behind: the parsed tree (`none` for `NULL`) and `errno`. -/
structure NbtParse where
  root : Option NbtNode
  errno : Int

/-- The `errno` value of a successful parse. -/
def NBT_OK : Int := 0

/-- The condition `!root || errno != NBT_OK || !cdnbt_ValidChunk(root)` of
`cdnbt_WorldGetChunk`: the chunk file failed to parse or to validate. -/
def chunkFileRejected (file : NbtParse) : Bool :=
  match file.root with
  | none => true
  | some root => file.errno != NBT_OK || !cdnbt_ValidChunk root

/-- Width of the global grids. -/
def MAP_WIDTH : Int := 500

/-- Height of the global grids. -/
def MAP_HEIGHT : Int := 500

/-- The globals of the NBT persistence plugin: the `chunk_generated` and `chunks` grids, both
allocated `MAP_WIDTH` by `MAP_HEIGHT` and not initialised. `generatorCalls` is a ghost counter
of the invocations of `cdnbt_GenerateChunk`. -/
structure NbtStore where
  chunk_generated : Nat → Nat → Nat
  chunks : Nat → Nat → SVChunk
  generatorCalls : Nat

/-- Whether `(x, z)` lies in the extent of the grids: `0 ≤ x+100 < 500` and `0 ≤ z+100 < 500`. -/
def inExtent (x z : Int) : Prop :=
  0 ≤ x + 100 ∧ x + 100 < MAP_WIDTH ∧ 0 ≤ z + 100 ∧ z + 100 < MAP_HEIGHT

instance (x z : Int) : Decidable (inExtent x z) :=
  inferInstanceAs
    (Decidable (0 ≤ x + 100 ∧ x + 100 < MAP_WIDTH ∧ 0 ≤ z + 100 ∧ z + 100 < MAP_HEIGHT))

/-- The index pair `[x+100][z+100]` used by the handlers. Outside the allocation the access is
undefined behaviour and the operation ends there. -/
def gridIndex (x z : Int) : Except Stop (Nat × Nat) :=
  if inExtent x z then Except.ok ((x + 100).toNat, (z + 100).toNat)
  else Except.error (Stop.outOfBounds (x + 100) (z + 100))

/-- Assignment to one cell of a grid. -/
def gridSet {α : Type} (grid : Nat → Nat → α) (i j : Nat) (value : α) : Nat → Nat → α :=
  fun a b => if a = i ∧ b = j then value else grid a b

/-- The five `memcpy` calls shared by `cdnbt_WorldGetChunk` (label `load_chunk`) and
`cdnbt_WorldSetChunk`: the buffers of `dst` receive those of `src`, the position of `dst` stays. -/
def copyChunkBuffers (dst src : SVChunk) : SVChunk :=
  { dst with
    heightMap := memcpy dst.heightMap src.heightMap 256
    blocks := memcpy dst.blocks src.blocks 32768
    data := memcpy dst.data src.data 16384
    blockLight := memcpy dst.blockLight src.blockLight 16384
    skyLight := memcpy dst.skyLight src.skyLight 16384 }

/-- `cdnbt_WorldGetChunk`. `generate` stands for `cdnbt_GenerateChunk` (in a helper file that is
not among the sources): it returns a status and the chunk it wrote into. `file` is the result of
`nbt_parse_path` on the chunk path, `chunk` the out-chunk, `error` the content of `*error` on
entry. Returns the C return value, the new globals, the out-chunk and `*error`. -/
def cdnbt_WorldGetChunk (generate : SVWorld → Int → Int → SVChunk → CDError × SVChunk)
    (file : NbtParse) (st : NbtStore) (world : SVWorld) (x z : Int) (chunk : SVChunk)
    (error : CDError) : Except Stop (Bool × NbtStore × SVChunk × CDError) :=
  match gridIndex x z with
  | Except.error e => Except.error e
  | Except.ok (i, j) =>
    if chunkFileRejected file && !(st.chunk_generated i j == 1) then
      if (generate world x z chunk).1 == CDOk then
        Except.ok (true,
          { st with
            chunk_generated := gridSet st.chunk_generated i j 1
            generatorCalls := st.generatorCalls + 1 },
          (generate world x z chunk).2, error)
      else
        Except.ok (true, { st with generatorCalls := st.generatorCalls + 1 },
          (generate world x z chunk).2, 1)
    else
      Except.ok (true, st, copyChunkBuffers chunk (st.chunks i j), error)

/-- `cdnbt_WorldSetChunk`. Returns the C return value and the new globals. -/
def cdnbt_WorldSetChunk (st : NbtStore) (_world : SVWorld) (x z : Int) (chunk : SVChunk) :
    Except Stop (Bool × NbtStore) :=
  match gridIndex x z with
  | Except.error e => Except.error e
  | Except.ok (i, j) =>
    Except.ok (true,
      { st with chunks := gridSet st.chunks i j (copyChunkBuffers (st.chunks i j) chunk) })

/-- A handler bound to `World.chunk`: it gets the plugin state, the world, the coordinate, the
out-chunk and `*error`, and returns its C return value with the updated state, out-chunk and
`*error`. -/
abbrev ChunkQueryHandler (σ : Type) :=
  σ → SVWorld → Int → Int → SVChunk → CDError → Except Stop (Bool × σ × SVChunk × CDError)

/-- A handler bound to `World.chunk=`. -/
abbrev ChunkStoreHandler (σ : Type) :=
  σ → SVWorld → Int → Int → SVChunk → Except Stop (Bool × σ)

/-- The handler loop of `CD_EventDispatchWithError`, continuing with status `error`. -/
def dispatchQueryFrom {σ : Type} (world : SVWorld) (x z : Int) :
    List (ChunkQueryHandler σ) → σ → SVChunk → CDError → Except Stop (CDError × σ × SVChunk)
  | [], st, chunk, error => Except.ok (error, st, chunk)
  | h :: hs, st, chunk, error =>
    match h st world x z chunk error with
    | Except.error e => Except.error e
    | Except.ok (continues, st1, chunk1, error1) =>
      if continues && error1 == CDOk then dispatchQueryFrom world x z hs st1 chunk1 error1
      else Except.ok (error1, st1, chunk1)

/-- Modelled from the spec: `CD_EventDispatchWithError` is a macro of the event bus, which is not
among the sources. Handlers run in registration order; the first handler that reports a
non-success status stops further invocation and that status is returned; with no handler the
dispatch is a successful no-op. -/
def CD_EventDispatchWithError {σ : Type} (handlers : List (ChunkQueryHandler σ)) (st : σ)
    (world : SVWorld) (x z : Int) (chunk : SVChunk) : Except Stop (CDError × σ × SVChunk) :=
  dispatchQueryFrom world x z handlers st chunk CDOk

/-- Modelled from the spec: `CD_EventDispatch` is a macro of the event bus, which is not among
the sources. Handlers run in registration order until one reports failure. -/
def CD_EventDispatch {σ : Type} (world : SVWorld) (x z : Int) (chunk : SVChunk) :
    List (ChunkStoreHandler σ) → σ → Except Stop σ
  | [], st => Except.ok st
  | h :: hs, st =>
    match h st world x z chunk with
    | Except.error e => Except.error e
    | Except.ok (continues, st1) =>
      if continues then CD_EventDispatch world x z chunk hs st1 else Except.ok st1

/-- The string `"%i_%i"` formats from `x` and `z`, the cache key of `SV_WorldGetChunk`. -/
def chunkKey (x z : Int) : String :=
  formatInt x ++ "_" ++ formatInt z

/-- `SV_WorldGetChunk`. `handlers` are the handlers bound to `World.chunk`, `st` the state they
work on, `fresh` the content of the chunk obtained from `CD_alloc`. Returns the C return value
(`none` for `NULL`), the handlers' state and the world. `sprintf` writes the key and its
terminating zero into `char buffer[8]`: a key of 8 characters or more does not fit. -/
def SV_WorldGetChunk {σ : Type} (handlers : List (ChunkQueryHandler σ)) (st : σ) (self : SVWorld)
    (x z : Int) (fresh : SVChunk) : Except Stop (Option SVChunk × σ × SVWorld) :=
  if 8 < (chunkKey x z).length + 1 then
    Except.error (Stop.bufferOverflow ((chunkKey x z).length + 1) 8)
  else if CD_HashHasKey self.chunks (chunkKey x z) then
    Except.ok (CD_HashGet self.chunks (chunkKey x z), st, self)
  else
    match CD_EventDispatchWithError handlers st self x z fresh with
    | Except.error e => Except.error e
    | Except.ok (status, st1, result) =>
      if status == CDOk then
        Except.ok (some result, st1,
          { self with chunks := CD_HashPut self.chunks (chunkKey x z) result })
      else
        Except.ok (none, st1, self)

/-- `SV_WorldSetChunk`. `handlers` are the handlers bound to `World.chunk=`. -/
def SV_WorldSetChunk {σ : Type} (handlers : List (ChunkStoreHandler σ)) (st : σ) (self : SVWorld)
    (chunk : SVChunk) : Except Stop σ :=
  CD_EventDispatch self chunk.position.x chunk.position.z chunk handlers st

/-- Byte equality of the five buffers of two chunks, over their declared sizes. -/
def sameBuffers (a b : SVChunk) : Prop :=
  (∀ i, i < 256 → a.heightMap i = b.heightMap i) ∧
  (∀ i, i < 32768 → a.blocks i = b.blocks i) ∧
  (∀ i, i < 16384 → a.data i = b.data i) ∧
  (∀ i, i < 16384 → a.blockLight i = b.blockLight i) ∧
  (∀ i, i < 16384 → a.skyLight i = b.skyLight i)

/-- A chunk at `(x, z)` whose buffers all hold the byte `b`. -/
def uniformChunk (x z : Int) (b : Nat) : SVChunk :=
  { position := ⟨x, z⟩
    heightMap := fun _ => b
    blocks := fun _ => b
    data := fun _ => b
    blockLight := fun _ => b
    skyLight := fun _ => b }

/-- Globals of the plugin in which no coordinate is marked as generated and every cell of the
`chunks` grid holds the byte `b` throughout. -/
def uniformStore (b : Nat) : NbtStore :=
  { chunk_generated := fun _ _ => 0
    chunks := fun _ _ => uniformChunk 0 0 b
    generatorCalls := 0 }

/-- Globals of the plugin in which every coordinate is marked as generated and every cell of the
`chunks` grid holds the byte `b` throughout. -/
def markedStore (b : Nat) : NbtStore :=
  { chunk_generated := fun _ _ => 1
    chunks := fun _ _ => uniformChunk 0 0 b
    generatorCalls := 0 }

/-- A generator that succeeds and fills the out-chunk with the byte `b`. -/
def uniformGenerator (b : Nat) : SVWorld → Int → Int → SVChunk → CDError × SVChunk :=
  fun _ x z _ => (CDOk, uniformChunk x z b)

/-- A generator that fails and leaves the out-chunk as it was. -/
def failingGenerator : SVWorld → Int → Int → SVChunk → CDError × SVChunk :=
  fun _ _ _ chunk => (1, chunk)

/-- A missing chunk file: `nbt_parse_path` returned `NULL`. -/
def missingFile : NbtParse :=
  { root := none, errno := 2 }

/-- A call on the player registry of a world: `SV_WorldAddPlayer` under one of the two
duplicate-name policies, or `SV_WorldRemovePlayer`. -/
inductive RegistryCall where
  | add (standard : Bool) (player : Nat)
  | remove (player : Nat)
deriving DecidableEq, Repr

/-- The state after one registry call (the return value of `SV_WorldAddPlayer` is dropped). -/
def registryStep (fuel : Nat) (st : Registry) : RegistryCall → Except Stop Registry
  | RegistryCall.add standard player =>
    match SV_WorldAddPlayer standard fuel st player with
    | Except.error e => Except.error e
    | Except.ok r => Except.ok r.2
  | RegistryCall.remove player => SV_WorldRemovePlayer st player

/-- The state after a sequence of registry calls, made one after the other. -/
def registryRun (fuel : Nat) : List RegistryCall → Registry → Except Stop Registry
  | [], st => Except.ok st
  | c :: cs, st =>
    match registryStep fuel st c with
    | Except.error e => Except.error e
    | Except.ok st1 => registryRun fuel cs st1

/-- The player at address `player` is registered: the players map holds it under its current
username. -/
def isRegistered (st : Registry) (player : Nat) : Prop :=
  CD_HashGet st.world.players (st.heap player).username = some player

instance (st : Registry) (player : Nat) : Decidable (isRegistered st player) :=
  inferInstanceAs
    (Decidable (CD_HashGet st.world.players (st.heap player).username = some player))

/-- Every `SV_WorldRemovePlayer` call of the sequence is made for a player that is registered
at the time of the call. -/
def removesRegistered (fuel : Nat) : List RegistryCall → Registry → Bool
  | [], _ => true
  | c :: cs, st =>
    (match c with
      | RegistryCall.remove player => decide (isRegistered st player)
      | RegistryCall.add _ _ => true) &&
    (match registryStep fuel st c with
      | Except.error _ => true
      | Except.ok st1 => removesRegistered fuel cs st1)

/-- The registry invariant: a player is the value of the players map under its current username
if and only if it is the value of the entities map under its entity id. -/
def registryConsistent (st : Registry) : Prop :=
  ∀ player : Nat,
    CD_HashGet st.world.players (st.heap player).username = some player ↔
      CD_MapGet st.world.entities (st.heap player).entityId = some player

/-- What holds of a registry that is only changed by successful joins and by removals of
registered players, after `k` entity ids were generated: keys are unique, each entry of one map
has its partner in the other map under the key recorded in the player object, the ids in use
are among the `k` ids generated so far (the `m`-th one is `9 + m` as a 32-bit integer), and
fewer than 2^32 - 8 ids were generated. -/
structure RegistryInv (st : Registry) (k : Nat) : Prop where
  playersKeys : (st.world.players.map Prod.fst).Nodup
  entitiesKeys : (st.world.entities.map Prod.fst).Nodup
  ofPlayers : ∀ n p, (n, p) ∈ st.world.players →
    (st.heap p).username = n ∧ ((st.heap p).entityId, p) ∈ st.world.entities
  ofEntities : ∀ i p, (i, p) ∈ st.world.entities →
    (st.heap p).entityId = i ∧ ((st.heap p).username, p) ∈ st.world.players ∧
      ∃ m : Nat, 1 ≤ m ∧ m ≤ k ∧ i = wrapInt32 (9 + (m : Int))
  count : k ≤ 4294967287
  last : st.world.lastGeneratedEntityId = if k = 0 then 0 else wrapInt32 (9 + (k : Int))

/-- A players map in which `base` and `base^1` .. `base^n` are all taken (by the players at
addresses `0` .. `n`). -/
def crowdedPlayers (base : String) (n : Nat) : CDHash Nat :=
  (base, 0) :: (List.range n).map
    (fun (i : Nat) => (base ++ "^" ++ formatInt ((i + 1 : Nat) : Int), i + 1))

/-- A registry whose world holds `crowdedPlayers base n`, with the player objects at addresses
`0` .. `n` registered under these names and every other address holding an unregistered player
named `base`. -/
def crowdedRegistry (base : String) (n : Nat) : Registry :=
  { world :=
      { addr := 1
        name := "world"
        dimension := SVWorldDimension.SVWorldNormal
        time := 0
        spawnPosition := ⟨0, 0, 0⟩
        players := crowdedPlayers base n
        entities := (List.range (n + 1)).map (fun (i : Nat) => (wrapInt32 ((i : Int) + 10), i))
        chunks := []
        lastGeneratedEntityId := wrapInt32 ((n : Int) + 10)
        error := SVWorldError.CDNull }
    heap := fun a =>
      if a = 0 then ⟨base, some 1, 10, 0⟩
      else if a ≤ n then
        ⟨base ++ "^" ++ formatInt (a : Int), some 1, wrapInt32 ((a : Int) + 10), a⟩
      else ⟨base, none, 0, a⟩ }

/-- A world just made by `SV_CreateWorld` in a process where the player object at address `a`
is unregistered and named by the decimal digits of `a`. -/
def namedRegistry : Registry :=
  { world := SV_CreateWorld id 1 "world" ⟨0, 0, 0⟩
    heap := fun a => ⟨formatInt (a : Int), none, 0, a⟩ }

/-- The players at addresses `0` .. `n - 1` join one after the other under the reject policy. -/
def joinCalls (n : Nat) : List RegistryCall :=
  (List.range n).map (RegistryCall.add true)

/-- The state of `namedRegistry` after the players `0` .. `k - 1` have joined: player 0 is
registered under its name with entity id 10, the players from `k` on are untouched, every key
of the players map is the name of a player below `k`, and the last generated id is `9 + k` as a
32-bit integer. -/
structure JoinedUpTo (st : Registry) (k : Nat) : Prop where
  first : CD_HashGet st.world.players (formatInt 0) = some 0
  firstName : (st.heap 0).username = formatInt 0
  firstId : (st.heap 0).entityId = 10
  rest : ∀ a : Nat, k ≤ a → st.heap a = ⟨formatInt (a : Int), none, 0, a⟩
  keys : ∀ key, CD_HashHasKey st.world.players key = true →
    ∃ i : Nat, i < k ∧ key = formatInt (i : Int)
  last : st.world.lastGeneratedEntityId = wrapInt32 (9 + (k : Int))
  pos : 1 ≤ k

/-! ## World time and world creation by the NBT persistence plugin -/

/-- Conversion of an integer to `uint16_t`: its value modulo 2^16. -/
def toUInt16 (v : Int) : Nat :=
  (v % 65536).toNat

/-- `SV_WorldGetTime`. -/
def SV_WorldGetTime (self : SVWorld) : Nat :=
  self.time

/-- `SV_WorldSetTime`. The parameter is a `uint16_t`: the value given by the caller is converted
at the call. Returns the C return value and the world. -/
def SV_WorldSetTime (self : SVWorld) (time : Int) : Nat × SVWorld :=
  (toUInt16 time, { self with time := toUInt16 time })

/-- Whether the tag under `.Data.<name>` is an Int tag. -/
def hasDataInt (root : NbtNode) (name : String) : Bool :=
  match nbt_find_by_path root ["Data", name] with
  | some (NbtNode.tagInt _ _) => true
  | _ => false

/-- Whether the tag under `.Data.<name>` is a Long tag. -/
def hasDataLong (root : NbtNode) (name : String) : Bool :=
  match nbt_find_by_path root ["Data", name] with
  | some (NbtNode.tagLong _ _) => true
  | _ => false

/-- Modelled from the spec: `cdnbt_ValidLevel` is in a helper file that is not among the sources;
the world-level file holds a root Compound containing a "Data" Compound with integer tags
`SpawnX`, `SpawnY`, `SpawnZ` and a long tag `Time`. -/
def cdnbt_ValidLevel (root : NbtNode) : Bool :=
  hasDataInt root "SpawnX" && hasDataInt root "SpawnY" && hasDataInt root "SpawnZ" &&
    hasDataLong root "Time"

/-- The condition `!root || errno != NBT_OK || !cdnbt_ValidLevel(root)` of `cdnbt_WorldCreate`:
`level.dat` is absent, unparsable or not a valid level. -/
def levelFileRejected (file : NbtParse) : Bool :=
  match file.root with
  | none => true
  | some root => file.errno != NBT_OK || !cdnbt_ValidLevel root

/-- The read `node->payload.tag_int` of the node a path lookup returned. -/
def payloadTagInt : Option NbtNode → Except Stop Int
  | some (NbtNode.tagInt _ value) => Except.ok value
  | _ => Except.error Stop.invalidRead

/-- The read `node->payload.tag_long` of the node a path lookup returned. -/
def payloadTagLong : Option NbtNode → Except Stop Int
  | some (NbtNode.tagLong _ value) => Except.ok value
  | _ => Except.error Stop.invalidRead

/-- The body of `cdnbt_WorldCreate` between the validity test and the label `done`: the spawn
position is assigned from the three Int tags and the time is set from the Long tag. -/
def hydrateWorld (root : NbtNode) (world : SVWorld) : Except Stop SVWorld :=
  match payloadTagInt (nbt_find_by_path root ["Data", "SpawnX"]),
      payloadTagInt (nbt_find_by_path root ["Data", "SpawnY"]),
      payloadTagInt (nbt_find_by_path root ["Data", "SpawnZ"]),
      payloadTagLong (nbt_find_by_path root ["Data", "Time"]) with
  | Except.ok x, Except.ok y, Except.ok z, Except.ok t =>
    Except.ok (SV_WorldSetTime { world with spawnPosition := ⟨x, y, z⟩ } t).2
  | _, _, _, _ => Except.error Stop.invalidRead

/-- `cdnbt_WorldCreate`. `file` is the result of `nbt_parse_path` on `level.dat`; `mapgenLevel`
is the dispatch of `Mapgen.level` made under the label `error`: it returns a status, used for
logging only, and the world as the handlers left it. Returns the C return value and the world. -/
def cdnbt_WorldCreate (mapgenLevel : SVWorld → CDError × SVWorld) (file : NbtParse)
    (world : SVWorld) : Except Stop (Bool × SVWorld) :=
  match file.root with
  | none => Except.ok (true, (mapgenLevel world).2)
  | some root =>
    if file.errno != NBT_OK || !cdnbt_ValidLevel root then
      Except.ok (true, (mapgenLevel world).2)
    else
      match hydrateWorld root world with
      | Except.error e => Except.error e
      | Except.ok w => Except.ok (true, w)

/-- The dispatch of an event no handler is bound to: a successful no-op. -/
def noHandler (world : SVWorld) : CDError × SVWorld :=
  (CDOk, world)

/-- `SV_CreateWorld` with `cdnbt_WorldCreate` as the only handler bound to `World.create`: the
world is made and then handed to the handler, whose return value is not looked at. -/
def createWorldNbt (mapgenLevel : SVWorld → CDError × SVWorld) (file : NbtParse) (addr : Nat)
    (name : String) (uninit : SVBlockPosition) : Except Stop SVWorld :=
  match cdnbt_WorldCreate mapgenLevel file (SV_CreateWorld id addr name uninit) with
  | Except.error e => Except.error e
  | Except.ok r => Except.ok r.2

/-- A level tree: a root Compound with a "Data" Compound holding the three spawn tags and the
time tag. -/
def levelTree (x y z t : Int) : NbtNode :=
  NbtNode.tagCompound ""
    [NbtNode.tagCompound "Data"
      [NbtNode.tagInt "SpawnX" x, NbtNode.tagInt "SpawnY" y, NbtNode.tagInt "SpawnZ" z,
        NbtNode.tagLong "Time" t]]

/-- A call that changes the time of a world: `SV_WorldSetTime` with the value the caller gives,
or hydration by `cdnbt_WorldCreate` from the parse result of `level.dat`. -/
inductive TimeCall where
  | setTime (time : Int)
  | hydrate (file : NbtParse)

/-- The world after one time call. -/
def timeStep (mapgenLevel : SVWorld → CDError × SVWorld) (world : SVWorld) :
    TimeCall → Except Stop SVWorld
  | TimeCall.setTime time => Except.ok (SV_WorldSetTime world time).2
  | TimeCall.hydrate file =>
    match cdnbt_WorldCreate mapgenLevel file world with
    | Except.error e => Except.error e
    | Except.ok r => Except.ok r.2

/-- The world after a sequence of time calls, made one after the other. -/
def timeRun (mapgenLevel : SVWorld → CDError × SVWorld) :
    List TimeCall → SVWorld → Except Stop SVWorld
  | [], world => Except.ok world
  | c :: cs, world =>
    match timeStep mapgenLevel world c with
    | Except.error e => Except.error e
    | Except.ok w => timeRun mapgenLevel cs w

/-- The value of the Time tag of a `level.dat` that `cdnbt_WorldCreate` accepts; `none` for a
file it rejects. -/
def acceptedLevelTime (file : NbtParse) : Option Int :=
  match file.root with
  | none => none
  | some root =>
    if file.errno != NBT_OK || !cdnbt_ValidLevel root then none
    else
      match payloadTagLong (nbt_find_by_path root ["Data", "Time"]) with
      | Except.ok t => some t
      | Except.error _ => none

/-- The value a time call hands over lies within the day: the argument of `SV_WorldSetTime`,
as a `uint16_t`, is in 0..23999, and so is the Time tag of an accepted `level.dat`. A rejected
`level.dat` hands over no value. -/
def timeCallInDay : TimeCall → Bool
  | TimeCall.setTime time => decide (toUInt16 time ≤ 23999)
  | TimeCall.hydrate file =>
    match acceptedLevelTime file with
    | none => true
    | some t => decide (toUInt16 t ≤ 23999)

/-- A `Mapgen.level` handler that sets the time of the world to 30000. -/
def lateHandler (world : SVWorld) : CDError × SVWorld :=
  (CDOk, (SV_WorldSetTime world 30000).2)

/-- A chunk file that parses and validates: a "Level" Compound with the five byte arrays of the
expected lengths, all holding the byte `b`. -/
def chunkFileWith (b : Nat) : NbtParse :=
  { root := some (NbtNode.tagCompound ""
      [NbtNode.tagCompound "Level"
        [NbtNode.tagByteArray "HeightMap" (List.replicate 256 b),
          NbtNode.tagByteArray "Blocks" (List.replicate 32768 b),
          NbtNode.tagByteArray "Data" (List.replicate 16384 b),
          NbtNode.tagByteArray "BlockLight" (List.replicate 16384 b),
          NbtNode.tagByteArray "SkyLight" (List.replicate 16384 b)]])
    errno := NBT_OK }

/-! ## The configuration file reader -/

/-- A JSON value as the jansson library hands it out. An object is the list of its members; the
payload of a real number plays no part in the reader and is kept as a rational. -/
inductive json_t where
  | null
  | boolean (value : Bool)
  | integer (value : Int)
  | real (value : Rat)
  | string (value : String)
  | array (items : List json_t)
  | object (members : List (String × json_t))

/-- `json_object_get(obj, key)`: the member of an object with the given key, `none` (`NULL`) when
the key is absent or the value is not an object. -/
def json_object_get (obj : json_t) (key : String) : Option json_t :=
  match obj with
  | json_t.object members => (members.find? (fun m => m.1 == key)).map (fun m => m.2)
  | _ => none

/-- `json_is_object(json)`; false for `NULL`. -/
def json_is_object : Option json_t → Bool
  | some (json_t.object _) => true
  | _ => false

/-- `json_is_boolean(json)`. -/
def json_is_boolean : json_t → Bool
  | json_t.boolean _ => true
  | _ => false

/-- `json_is_true(json)`. -/
def json_is_true : json_t → Bool
  | json_t.boolean true => true
  | _ => false

/-- `json_is_number(json)`: an integer or a real. -/
def json_is_number : json_t → Bool
  | json_t.integer _ => true
  | json_t.real _ => true
  | _ => false

/-- `json_integer_value(json)`: the value of an integer, 0 for anything else. -/
def json_integer_value : json_t → Int
  | json_t.integer v => v
  | _ => 0

/-- `json_string_value(json)`: the value of a string, `none` (`NULL`) for anything else. -/
def json_string_value : json_t → Option String
  | json_t.string v => some v
  | _ => none

/-- The settings structure `Config`, with the fields that `craftd-config.c` assigns. -/
structure CraftdSettings where
  daemonize : Bool
  game_port : Int
  max_listenbacklog : Int
  mcstring_max : Int
  workpool_size : Int
  motd_file : String
  httpd_enabled : Bool
  httpd_port : Int
  docroot : String
  deriving DecidableEq

/-- The defaults that `craftd_config_setdefaults` assigns to `Config`. -/
def craftd_config_setdefaults (Config : CraftdSettings) : CraftdSettings :=
  { Config with
    daemonize := true
    game_port := 25565
    max_listenbacklog := 16
    mcstring_max := 100
    workpool_size := 2
    motd_file := "motd.conf"
    httpd_enabled := true
    httpd_port := 25566
    docroot := "htdocs/" }

/-- The ways in which the reader ends the process through `ERR` (the checks the source marks as
fatal). -/
inductive ConfigExit where
  /-- "Config: craftd.conf not found!" -/
  | notFound
  /-- "Config: file %s not readable!" -/
  | notReadable (file : String)
  /-- "Cannot parse config file!" -/
  | cannotParse
  /-- "Value is not boolean!" -/
  | notBoolean (key : String)
  /-- "Value is not an integer!" -/
  | notInteger (key : String)
  /-- "Error processing key" of `parseJInt`: the value casts to 0. -/
  | zeroInteger (key : String)
  /-- "Value is not a string!" -/
  | notString (key : String)
  deriving DecidableEq

/-- `parseJBool(bool *storage, obj, key)`; `storage` is the content of `*storage` on entry and
the result is its content on return. -/
def parseJBool (storage : Bool) (obj : json_t) (key : String) : Except ConfigExit Bool :=
  match json_object_get obj key with
  | none => Except.ok storage
  | some boolobj =>
    if !json_is_boolean boolobj then Except.error (ConfigExit.notBoolean key)
    else if json_is_true boolobj then Except.ok true
    else Except.ok false

/-- `parseJInt(int *storage, obj, key)`; `storage` is the content of `*storage` on entry and the
result is its content on return. The value is cast to `int32_t`, and 0 is fatal. -/
def parseJInt (storage : Int) (obj : json_t) (key : String) : Except ConfigExit Int :=
  match json_object_get obj key with
  | none => Except.ok storage
  | some intobj =>
    if !json_is_number intobj then Except.error (ConfigExit.notInteger key)
    else
      let ival := wrapInt32 (json_integer_value intobj)
      if ival == 0 then Except.error (ConfigExit.zeroInteger key)
      else Except.ok ival

/-- `parseJString(char *storage, obj, key)`. The parameter `storage` is a pointer passed by
value: the two assignments `storage = Malloc(..)` and `storage = strdup(strval)` change the
local variable only, and nothing is written through the pointer that the caller passed. The
result is the string the local `storage` points to on return; the caller has no access to it.
The check `json_is_string` fails exactly when `json_string_value` is `NULL`. -/
def parseJString (storage : String) (obj : json_t) (key : String) : Except ConfigExit String :=
  match json_object_get obj key with
  | none => Except.ok storage
  | some strobj =>
    match json_string_value strobj with
    | none => Except.error (ConfigExit.notString key)
    | some strval => Except.ok strval

/-- What the reader sees of the file system: `access(file, R_OK) == 0` and the result of
`json_load_file` (`none` for `NULL`). -/
structure ConfigFiles where
  readable : String → Bool
  json_load_file : String → Option json_t

/-- The "server" section of `craftd_config_parse`. The call
`parseJString(Config.motd_file, ..)` passes the pointer held in `Config.motd_file` by value,
so the field is not assigned. -/
def parseServerSection (Config : CraftdSettings) (json : json_t) :
    Except ConfigExit CraftdSettings :=
  match json_object_get json "server" with
  | some (json_t.object members) => do
    let jsongame := json_t.object members
    let daemonize ← parseJBool Config.daemonize jsongame "daemonize"
    let game_port ← parseJInt Config.game_port jsongame "game-port"
    let mcstring_max ← parseJInt Config.mcstring_max jsongame "minecraft-stringmax"
    let workpool_size ← parseJInt Config.workpool_size jsongame "worker-pool-size"
    let _ ← parseJString Config.motd_file jsongame "motd-file"
    Except.ok { Config with
      daemonize := daemonize
      game_port := game_port
      mcstring_max := mcstring_max
      workpool_size := workpool_size }
  | _ => Except.ok Config

/-- The "httpd" section of `craftd_config_parse`; `Config.docroot` is passed like
`Config.motd_file`. -/
def parseHttpdSection (Config : CraftdSettings) (json : json_t) :
    Except ConfigExit CraftdSettings :=
  match json_object_get json "httpd" with
  | some (json_t.object members) => do
    let jsonhttp := json_t.object members
    let httpd_enabled ← parseJBool Config.httpd_enabled jsonhttp "enabled"
    let httpd_port ← parseJInt Config.httpd_port jsonhttp "httpd-port"
    let _ ← parseJString Config.docroot jsonhttp "static-docroot"
    Except.ok { Config with httpd_enabled := httpd_enabled, httpd_port := httpd_port }
  | _ => Except.ok Config

/-- `craftd_config_parse(file)`: `file` is `none` for `NULL`, `searchpath` is
`config_searchpath`, and `Config` is the global settings structure on entry; the result is the
structure on return. -/
def craftd_config_parse (fs : ConfigFiles) (searchpath : List String) (file : Option String)
    (Config : CraftdSettings) : Except ConfigExit CraftdSettings := do
  let file ←
    match file with
    | none =>
      match searchpath.find? fs.readable with
      | none => Except.error ConfigExit.notFound
      | some found => Except.ok found
    | some given =>
      if fs.readable given then Except.ok given
      else Except.error (ConfigExit.notReadable given)
  match fs.json_load_file file with
  | none => Except.error ConfigExit.cannotParse
  | some json =>
    let Config ← parseServerSection Config json
    parseHttpdSection Config json

/-- A file system holding one configuration file, `craftd.conf`, with the given content. -/
def configFiles (json : json_t) : ConfigFiles :=
  { readable := fun f => f == "craftd.conf"
    json_load_file := fun f => if f == "craftd.conf" then some json else none }

/-- The configuration
`{"server": {"game-port": 4000, "motd-file": s}, "httpd": {"static-docroot": t}}`. -/
def stringsConfig (s t : String) : json_t :=
  json_t.object
    [("server", json_t.object
        [("game-port", json_t.integer 4000), ("motd-file", json_t.string s)]),
      ("httpd", json_t.object [("static-docroot", json_t.string t)])]

/-- A settings structure before the defaults are assigned. -/
def blankSettings : CraftdSettings :=
  { daemonize := false
    game_port := 0
    max_listenbacklog := 0
    mcstring_max := 0
    workpool_size := 0
    motd_file := ""
    httpd_enabled := false
    httpd_port := 0
    docroot := "" }

/-! # Properties -/

/-! ## Formatted names -/

theorem digitChar_toNat (d : Nat) (h : d < 10) : (Nat.digitChar d).toNat - 48 = d := by
  interval_cases d <;> rfl

theorem digitChar_ne_minus (d : Nat) (h : d < 10) : Nat.digitChar d ≠ '-' := by
  interval_cases d <;> decide

theorem decodeDigits_toDigitsCore (fuel : Nat) : ∀ (n : Nat) (ds : List Char), n < fuel →
    decodeDigits (Nat.toDigitsCore 10 fuel n ds) 0 = decodeDigits ds n := by
  induction fuel with
  | zero => intro n ds h; omega
  | succ f ih =>
    intro n ds h
    have hd := digitChar_toNat (n % 10) (Nat.mod_lt _ (by norm_num))
    by_cases h0 : n / 10 = 0
    · simp only [Nat.toDigitsCore, h0, if_true, decodeDigits, List.foldl_cons, hd]
      congr 1
      omega
    · simp only [Nat.toDigitsCore, h0, if_false]
      rw [ih (n / 10) _ (by omega)]
      simp only [decodeDigits, List.foldl_cons, hd]
      congr 1
      omega

theorem toDigits_injective (n m : Nat) (h : Nat.toDigits 10 n = Nat.toDigits 10 m) : n = m := by
  have h1 := decodeDigits_toDigitsCore (n + 1) n [] (by omega)
  have h2 := decodeDigits_toDigitsCore (m + 1) m [] (by omega)
  simp only [decodeDigits, List.foldl_nil] at h1 h2
  unfold Nat.toDigits at h
  rw [← h1, ← h2]
  simp only [decodeDigits, h]

theorem toDigitsCore_chars (fuel : Nat) : ∀ (n : Nat) (ds : List Char) (c : Char),
    c ∈ Nat.toDigitsCore 10 fuel n ds → c ∈ ds ∨ ∃ d, d < 10 ∧ c = Nat.digitChar d := by
  induction fuel with
  | zero => intro n ds c h; left; simpa [Nat.toDigitsCore] using h
  | succ f ih =>
    intro n ds c h
    by_cases h0 : n / 10 = 0
    · simp only [Nat.toDigitsCore, h0, if_true, List.mem_cons] at h
      rcases h with h | h
      · right; exact ⟨n % 10, Nat.mod_lt _ (by norm_num), h⟩
      · left; exact h
    · simp only [Nat.toDigitsCore, h0, if_false] at h
      rcases ih _ _ _ h with h | h
      · rw [List.mem_cons] at h
        rcases h with h | h
        · right; exact ⟨n % 10, Nat.mod_lt _ (by norm_num), h⟩
        · left; exact h
      · right; exact h

theorem toDigits_no_minus (n : Nat) : '-' ∉ Nat.toDigits 10 n := by
  intro h
  rcases toDigitsCore_chars _ _ _ _ h with h | ⟨d, hd, h⟩
  · simp at h
  · exact digitChar_ne_minus d hd h.symm

theorem formatInt_injective (a b : Int) (h : formatInt a = formatInt b) : a = b := by
  unfold formatInt at h
  by_cases ha : a < 0 <;> by_cases hb : b < 0
  · simp only [ha, hb, if_true] at h
    have h' := congrArg String.data h
    simp only [String.data_append, List.append_cancel_left_eq] at h'
    have := toDigits_injective _ _ h'
    omega
  · simp only [ha, hb, if_true, if_false] at h
    have h' := congrArg String.data h
    simp only [String.data_append] at h'
    exfalso
    apply toDigits_no_minus b.toNat
    rw [← h']
    simp
  · simp only [ha, hb, if_true, if_false] at h
    have h' := congrArg String.data h
    simp only [String.data_append] at h'
    exfalso
    apply toDigits_no_minus a.toNat
    rw [h']
    simp
  · simp only [ha, hb, if_false] at h
    have h' := congrArg String.data h
    have := toDigits_injective _ _ h'
    omega

theorem suffixed_injective (base : String) (a b : Int)
    (h : base ++ "^" ++ formatInt a = base ++ "^" ++ formatInt b) : a = b := by
  apply formatInt_injective
  have h' := congrArg String.data h
  simp only [String.data_append, List.append_assoc, List.append_cancel_left_eq] at h'
  exact String.ext h'

theorem suffixed_ne_base (base : String) (a : Int) : base ++ "^" ++ formatInt a ≠ base := by
  intro h
  have h' := congrArg (fun s => s.data.length) h
  simp only [String.data_append, List.length_append] at h'
  have h1 : ("^" : String).data.length = 1 := rfl
  rw [h1] at h'
  omega

/-! ## Map operations -/

theorem CD_HashHasKey_iff {α : Type} (m : CDHash α) (s : String) :
    CD_HashHasKey m s = true ↔ ∃ v, (s, v) ∈ m := by
  simp only [CD_HashHasKey, List.any_eq_true, beq_iff_eq]
  constructor
  · rintro ⟨⟨k, v⟩, hm, rfl⟩
    exact ⟨v, hm⟩
  · rintro ⟨v, hm⟩
    exact ⟨(s, v), hm, rfl⟩

theorem CD_HashHasKey_delete {α : Type} (m : CDHash α) (k s : String) :
    CD_HashHasKey (CD_HashDelete m k) s = true ↔ s ≠ k ∧ CD_HashHasKey m s = true := by
  simp only [CD_HashHasKey_iff, CD_HashDelete, List.mem_filter, Bool.not_eq_true',
    beq_eq_false_iff_ne, ne_eq]
  constructor
  · rintro ⟨v, hm, hne⟩
    exact ⟨hne, v, hm⟩
  · rintro ⟨hne, v, hm⟩
    exact ⟨v, hm, hne⟩

theorem CD_HashHasKey_put {α : Type} (m : CDHash α) (k s : String) (v : α) :
    CD_HashHasKey (CD_HashPut m k v) s = true ↔ s = k ∨ CD_HashHasKey m s = true := by
  have hd := CD_HashHasKey_delete m k s
  simp only [CD_HashHasKey, CD_HashPut, List.any_cons, Bool.or_eq_true, beq_iff_eq] at hd ⊢
  rw [hd]
  constructor
  · rintro (h | h)
    · exact Or.inl h.symm
    · exact Or.inr h.2
  · rintro (h | h)
    · exact Or.inl h.symm
    · by_cases e : s = k
      · exact Or.inl e.symm
      · exact Or.inr ⟨e, h⟩

theorem CD_HashGet_put_self {α : Type} (m : CDHash α) (k : String) (v : α) :
    CD_HashGet (CD_HashPut m k v) k = some v := by
  simp [CD_HashGet, CD_HashPut]

theorem CD_MapGet_put_self {α : Type} (m : CDMap α) (k : Int) (v : α) :
    CD_MapGet (CD_MapPut m k v) k = some v := by
  simp [CD_MapGet, CD_MapPut]

theorem assoc_find_filter_other {κ α : Type} [BEq κ] [LawfulBEq κ] (m : List (κ × α))
    (k k1 : κ) (h : k1 ≠ k) :
    (m.filter (fun e => !(e.1 == k))).find? (fun e => e.1 == k1) =
      m.find? (fun e => e.1 == k1) := by
  induction m with
  | nil => rfl
  | cons e m ih =>
    rw [List.filter_cons]
    by_cases hk : (e.1 == k) = true
    · have hk2 : e.1 = k := eq_of_beq hk
      have hne : (e.1 == k1) = false := by
        rw [beq_eq_false_iff_ne]
        intro e1
        exact h (e1.symm.trans hk2)
      simp only [hk, Bool.not_true, Bool.false_eq_true, if_false, List.find?_cons, hne, ih]
    · have hk2 : (e.1 == k) = false := by simpa using hk
      simp only [hk2, Bool.not_false, if_true, List.find?_cons, ih]

theorem assoc_find_filter_self {κ α : Type} [BEq κ] [LawfulBEq κ] (m : List (κ × α)) (k : κ) :
    (m.filter (fun e => !(e.1 == k))).find? (fun e => e.1 == k) = none := by
  rw [List.find?_eq_none]
  intro e he
  have := (List.mem_filter.mp he).2
  simpa using this

/-! # Properties of World.c -/

/-! ## Entity ids -/

theorem wrapInt32_of_range (v : Int) (h1 : -2147483648 ≤ v) (h2 : v ≤ 2147483647) :
    wrapInt32 v = v := by
  unfold wrapInt32
  omega

theorem SV_WorldGenerateEntityId_fresh (w : SVWorld) (h : w.lastGeneratedEntityId = 0) :
    (SV_WorldGenerateEntityId w).1 = 10 ∧
      (SV_WorldGenerateEntityId w).2.lastGeneratedEntityId = 10 := by
  simp [SV_WorldGenerateEntityId, h]

theorem SV_WorldGenerateEntityId_next (w : SVWorld) (h1 : 1 ≤ w.lastGeneratedEntityId)
    (h2 : w.lastGeneratedEntityId < 2147483647) :
    (SV_WorldGenerateEntityId w).1 = w.lastGeneratedEntityId + 1 ∧
      (SV_WorldGenerateEntityId w).2.lastGeneratedEntityId = w.lastGeneratedEntityId + 1 := by
  have hne : w.lastGeneratedEntityId ≠ 0 := by omega
  have hw : wrapInt32 (w.lastGeneratedEntityId + 1) = w.lastGeneratedEntityId + 1 :=
    wrapInt32_of_range _ (by omega) (by omega)
  simp [SV_WorldGenerateEntityId, hne, hw]

theorem generatedIds_append (n m : Nat) (w : SVWorld) :
    generatedIds (n + m) w = generatedIds n w ++ generatedIds m (afterGeneratedIds n w) := by
  induction n generalizing w with
  | zero => simp [generatedIds, afterGeneratedIds]
  | succ k ih =>
    have e : k + 1 + m = (k + m) + 1 := by omega
    rw [e]
    simp [generatedIds, afterGeneratedIds, ih]

theorem generatedIds_running (n : Nat) (w : SVWorld) (h1 : 1 ≤ w.lastGeneratedEntityId)
    (h2 : w.lastGeneratedEntityId + n ≤ 2147483647) :
    generatedIds n w = (List.range n).map (fun (i : Nat) => w.lastGeneratedEntityId + 1 + (i : Int)) ∧
      (afterGeneratedIds n w).lastGeneratedEntityId = w.lastGeneratedEntityId + n := by
  induction n generalizing w with
  | zero => simp [generatedIds, afterGeneratedIds]
  | succ k ih =>
    obtain ⟨ha, hb⟩ := SV_WorldGenerateEntityId_next w h1 (by omega)
    obtain ⟨hc, hd⟩ := ih (SV_WorldGenerateEntityId w).2 (by omega) (by rw [hb]; omega)
    constructor
    · rw [generatedIds, hc, ha, hb, List.range_succ_eq_map]
      simp only [List.map_cons, List.map_map]
      congr 1
      · simp
      · apply List.map_congr_left
        intro i _
        simp only [Function.comp, Nat.succ_eq_add_one]
        push_cast
        ring
    · rw [afterGeneratedIds, hd, hb]
      push_cast
      ring

theorem generatedIds_fresh (n : Nat) (w : SVWorld) (h0 : w.lastGeneratedEntityId = 0)
    (hn : (n : Int) + 9 ≤ 2147483647) :
    generatedIds n w = (List.range n).map (fun (i : Nat) => 10 + (i : Int)) ∧
      (1 ≤ n → (afterGeneratedIds n w).lastGeneratedEntityId = 9 + n) := by
  cases n with
  | zero => simp [generatedIds]
  | succ k =>
    obtain ⟨ha, hb⟩ := SV_WorldGenerateEntityId_fresh w h0
    obtain ⟨hc, hd⟩ := generatedIds_running k (SV_WorldGenerateEntityId w).2 (by omega)
      (by rw [hb]; push_cast at hn; omega)
    constructor
    · rw [generatedIds, hc, ha, hb, List.range_succ_eq_map]
      simp only [List.map_cons, List.map_map]
      congr 1
      apply List.map_congr_left
      intro i _
      simp only [Function.comp, Nat.succ_eq_add_one]
      push_cast
      ring
    · intro _
      rw [afterGeneratedIds, hd, hb]
      push_cast
      ring

/-- C1 (as amended): for a world with `lastGeneratedEntityId = 0` and every `n` with
`1 ≤ n ≤ 2^31 - 10`, the ids returned by `n` successive calls of `SV_WorldGenerateEntityId` are
strictly increasing, the first one is 10 and none is 0. -/
theorem C1_generatedIds_increasing (w : SVWorld) (n : Nat)
    (h0 : w.lastGeneratedEntityId = 0) (h1 : 1 ≤ n) (h2 : n ≤ 2147483638) :
    (generatedIds n w).Pairwise (fun a b => a < b) ∧
      (generatedIds n w).head? = some 10 ∧ (0 : Int) ∉ generatedIds n w := by
  obtain ⟨hl, _⟩ := generatedIds_fresh n w h0 (by omega)
  rw [hl]
  refine ⟨?_, ?_, ?_⟩
  · rw [List.pairwise_map]
    refine (List.pairwise_lt_range n).imp ?_
    intro a b hab
    omega
  · obtain ⟨k, rfl⟩ : ∃ k, n = k + 1 := ⟨n - 1, by omega⟩
    simp [List.range_succ_eq_map]
  · simp only [List.mem_map, List.mem_range, not_exists, not_and]
    intro i _
    omega

/-- Witness of C1 (as amended): three calls on the world made by `SV_CreateWorld` with no
`World.create` handler. -/
theorem C1_generatedIds_increasing_witness :
    (generatedIds 3 (SV_CreateWorld id 1 "world" ⟨0, 0, 0⟩)).Pairwise (fun a b => a < b) ∧
      (generatedIds 3 (SV_CreateWorld id 1 "world" ⟨0, 0, 0⟩)).head? = some 10 ∧
      (0 : Int) ∉ generatedIds 3 (SV_CreateWorld id 1 "world" ⟨0, 0, 0⟩) :=
  C1_generatedIds_increasing (SV_CreateWorld id 1 "world" ⟨0, 0, 0⟩) 3 rfl (by decide) (by decide)

/-- C1 (counterexample): on a fresh world the ids returned by `2^31 - 9` successive calls are not
strictly increasing: the last call increments 2147483647 and returns -2147483648. -/
theorem C1_generatedIds_wrap :
    ¬ (generatedIds 2147483639 (SV_CreateWorld id 1 "world" ⟨0, 0, 0⟩)).Pairwise
        (fun a b => a < b) := by
  intro h
  have e : (2147483639 : Nat) = 2147483638 + 1 := by norm_num
  rw [e, generatedIds_append] at h
  obtain ⟨hl, hlast⟩ := generatedIds_fresh 2147483638 (SV_CreateWorld id 1 "world" ⟨0, 0, 0⟩)
    rfl (by norm_num)
  have hlast2 := hlast (by norm_num)
  have hmem : (10 : Int) ∈ generatedIds 2147483638 (SV_CreateWorld id 1 "world" ⟨0, 0, 0⟩) := by
    rw [hl]
    simp only [List.mem_map, List.mem_range]
    exact ⟨0, by norm_num, by norm_num⟩
  have hnew : generatedIds 1 (afterGeneratedIds 2147483638 (SV_CreateWorld id 1 "world" ⟨0, 0, 0⟩))
      = [-2147483648] := by
    simp only [generatedIds, SV_WorldGenerateEntityId, hlast2]
    simp [wrapInt32]
  rw [hnew, List.pairwise_append] at h
  have := h.2.2 10 hmem (-2147483648) (by simp)
  omega

/-! ## Adding a player whose name is taken: the reject policy -/

/-- C2: when the username of the player is already a key of the players map and the policy is
to reject, `SV_WorldAddPlayer` returns false, sets the world error to `SVWorldErrUsernameTaken`
and changes nothing else: the players map, the entities map, `lastGeneratedEntityId` and every
player object (username, world reference, entity id still 0) are as before. -/
theorem C2_addPlayer_reject_unchanged (fuel : Nat) (self : Registry) (player : Nat)
    (hid : (self.heap player).entityId = 0)
    (htaken : CD_HashHasKey self.world.players (self.heap player).username = true) :
    ∃ r, SV_WorldAddPlayer true fuel self player = Except.ok (false, r) ∧
      r.world.error = SVWorldError.SVWorldErrUsernameTaken ∧
      r.world.players = self.world.players ∧
      r.world.entities = self.world.entities ∧
      r.world.lastGeneratedEntityId = self.world.lastGeneratedEntityId ∧
      r.heap = self.heap ∧
      (r.heap player).username = (self.heap player).username ∧
      (r.heap player).world = (self.heap player).world ∧
      (r.heap player).entityId = 0 := by
  refine ⟨{ self with world := { self.world with
      error := SVWorldError.SVWorldErrUsernameTaken } }, ?_, rfl, rfl, rfl, rfl, rfl, rfl, rfl, hid⟩
  simp [SV_WorldAddPlayer, hid, htaken]

/-- Witness of C2: `alice` is taken in the world and another player named `alice` joins. -/
theorem C2_addPlayer_reject_unchanged_witness :
    ((crowdedRegistry "alice" 2).heap 5).entityId = 0 ∧
    CD_HashHasKey (crowdedRegistry "alice" 2).world.players
      ((crowdedRegistry "alice" 2).heap 5).username = true ∧
    ∃ r, SV_WorldAddPlayer true 0 (crowdedRegistry "alice" 2) 5 = Except.ok (false, r) ∧
      r.world.error = SVWorldError.SVWorldErrUsernameTaken ∧
      r.world.players = (crowdedRegistry "alice" 2).world.players ∧
      r.world.entities = (crowdedRegistry "alice" 2).world.entities ∧
      r.world.lastGeneratedEntityId = (crowdedRegistry "alice" 2).world.lastGeneratedEntityId ∧
      r.heap = (crowdedRegistry "alice" 2).heap ∧
      (r.heap 5).username = ((crowdedRegistry "alice" 2).heap 5).username ∧
      (r.heap 5).world = ((crowdedRegistry "alice" 2).heap 5).world ∧
      (r.heap 5).entityId = 0 :=
  ⟨rfl, by decide,
    C2_addPlayer_reject_unchanged 0 (crowdedRegistry "alice" 2) 5 rfl (by decide)⟩

/-! ## Adding a player whose name is taken: the rename policy -/

theorem renameLoop_free (players : CDHash Nat) (base : String) (fuel : Nat) (c : Int)
    (hfuel : 1 ≤ fuel) (hfree : CD_HashHasKey players (base ++ "^" ++ formatInt c) = false) :
    renameLoop players base fuel c = Except.ok (base ++ "^" ++ formatInt c) := by
  obtain ⟨f, rfl⟩ : ∃ f, fuel = f + 1 := ⟨fuel - 1, by omega⟩
  simp [renameLoop, hfree]

theorem renameLoop_skip (players : CDHash Nat) (base : String) (m : Nat) :
    ∀ (fuel : Nat) (c : Int), 1 ≤ c → c ≤ 2147483647 → c + m ≤ 2147483648 →
      (∀ j : Int, c ≤ j → j < c + m →
        CD_HashHasKey players (base ++ "^" ++ formatInt j) = true) →
      m ≤ fuel →
      renameLoop players base fuel c = renameLoop players base (fuel - m) (wrapInt32 (c + m)) := by
  induction m with
  | zero =>
    intro fuel c h1 h2 _ _ _
    simp [wrapInt32_of_range c (by omega) h2]
  | succ n ih =>
    intro fuel c h1 h2 h3 hkeys hfuel
    obtain ⟨f, rfl⟩ : ∃ f, fuel = f + 1 := ⟨fuel - 1, by omega⟩
    have hc : CD_HashHasKey players (base ++ "^" ++ formatInt c) = true :=
      hkeys c (le_refl _) (by push_cast; omega)
    rw [renameLoop, if_pos hc]
    by_cases hn : n = 0
    · subst hn
      simp
    · have hw : wrapInt32 (c + 1) = c + 1 := wrapInt32_of_range _ (by omega) (by push_cast at h3; omega)
      rw [hw, ih f (c + 1) (by omega) (by push_cast at h3; omega) (by push_cast at h3 ⊢; omega)
        (fun j hj1 hj2 => hkeys j (by omega) (by push_cast at hj2 ⊢; omega)) (by omega)]
      have e1 : f + 1 - (n + 1) = f - n := by omega
      have e2 : c + 1 + (n : Int) = c + ((n + 1 : Nat) : Int) := by push_cast; ring
      rw [e1, e2]

theorem renameLoop_least (players : CDHash Nat) (base : String) (k fuel : Nat)
    (hk1 : 1 ≤ k) (hk2 : k ≤ 2147483647) (hfuel : k ≤ fuel)
    (hbelow : ∀ j : Nat, 1 ≤ j → j < k →
      CD_HashHasKey players (base ++ "^" ++ formatInt (j : Int)) = true)
    (hfree : CD_HashHasKey players (base ++ "^" ++ formatInt (k : Int)) = false) :
    renameLoop players base fuel 1 = Except.ok (base ++ "^" ++ formatInt (k : Int)) := by
  have hs := renameLoop_skip players base (k - 1) fuel 1 (le_refl _) (by norm_num) (by omega)
    (fun j hj1 hj2 => by
      have := hbelow j.toNat (by omega) (by omega)
      rwa [Int.toNat_of_nonneg (by omega)] at this) (by omega)
  have e : (1 : Int) + ((k - 1 : Nat) : Int) = (k : Int) := by omega
  rw [hs, e, wrapInt32_of_range _ (by omega) (by omega)]
  exact renameLoop_free players base _ _ (by omega) hfree

theorem exists_free_suffix (players : CDHash Nat) (base : String) (M : Nat)
    (hlen : players.length ≤ M) (htaken : CD_HashHasKey players base = true) :
    ∃ k : Nat, 1 ≤ k ∧ k ≤ M ∧
      CD_HashHasKey players (base ++ "^" ++ formatInt (k : Int)) = false := by
  by_contra hcon
  push_neg at hcon
  have hall : ∀ k : Nat, 1 ≤ k → k ≤ M →
      CD_HashHasKey players (base ++ "^" ++ formatInt (k : Int)) = true := by
    intro k h1 h2
    have := hcon k h1 h2
    simpa using this
  let names : List String :=
    base :: (List.range M).map (fun (i : Nat) => base ++ "^" ++ formatInt ((i + 1 : Nat) : Int))
  have hnd : names.Nodup := by
    refine List.nodup_cons.mpr ⟨?_, ?_⟩
    · intro hm
      obtain ⟨i, _, hi⟩ := List.mem_map.mp hm
      exact suffixed_ne_base base _ hi
    · refine (List.nodup_range M).map ?_
      intro a b hab
      have := suffixed_injective base _ _ hab
      omega
  have hsub : names ⊆ players.map Prod.fst := by
    intro s hs
    rw [List.mem_cons] at hs
    have hk : CD_HashHasKey players s = true := by
      rcases hs with rfl | hs
      · exact htaken
      · obtain ⟨i, hi, rfl⟩ := List.mem_map.mp hs
        exact hall (i + 1) (by omega) (by have := List.mem_range.mp hi; omega)
    obtain ⟨v, hv⟩ := (CD_HashHasKey_iff players s).mp hk
    exact List.mem_map.mpr ⟨(s, v), hv, rfl⟩
  have hle := (hnd.subperm hsub).length_le
  simp only [names, List.length_cons, List.length_map, List.length_range] at hle
  omega

/-- C3 (as amended): for every world whose players map has at most 2^31 - 1 entries and every
player whose username B is already taken, `SV_WorldAddPlayer` under the rename policy terminates
(any fuel from the size of the map on gives the same result), returns true, and leaves the
player registered under `B^k`, where `k` is the smallest integer `≥ 1` such that `B^k` was not
a key of the players map. -/
theorem C3_addPlayer_rename_least (self : Registry) (player : Nat)
    (hid : (self.heap player).entityId = 0)
    (htaken : CD_HashHasKey self.world.players (self.heap player).username = true)
    (hlen : self.world.players.length ≤ 2147483647) :
    ∃ (k : Nat) (r : Registry), 1 ≤ k ∧
      CD_HashHasKey self.world.players
        ((self.heap player).username ++ "^" ++ formatInt (k : Int)) = false ∧
      (∀ j : Nat, 1 ≤ j → j < k → CD_HashHasKey self.world.players
        ((self.heap player).username ++ "^" ++ formatInt (j : Int)) = true) ∧
      (∀ fuel : Nat, self.world.players.length ≤ fuel →
        SV_WorldAddPlayer false fuel self player = Except.ok (true, r)) ∧
      (r.heap player).username = (self.heap player).username ++ "^" ++ formatInt (k : Int) ∧
      (r.heap player).world = some self.world.addr ∧
      CD_HashGet r.world.players
        ((self.heap player).username ++ "^" ++ formatInt (k : Int)) = some player ∧
      CD_MapGet r.world.entities (r.heap player).entityId = some player := by
  have hex := exists_free_suffix self.world.players (self.heap player).username
    self.world.players.length (le_refl _) htaken
  classical
  let P : Nat → Prop := fun k => 1 ≤ k ∧ k ≤ self.world.players.length ∧
      CD_HashHasKey self.world.players
        ((self.heap player).username ++ "^" ++ formatInt (k : Int)) = false
  have hP : ∃ k, P k := hex
  obtain ⟨hk1, hk2, hk3⟩ : P (Nat.find hP) := Nat.find_spec hP
  have hmin : ∀ j : Nat, 1 ≤ j → j < Nat.find hP → CD_HashHasKey self.world.players
      ((self.heap player).username ++ "^" ++ formatInt (j : Int)) = true := by
    intro j hj1 hj2
    have hnot := Nat.find_min hP hj2
    by_contra hc
    exact hnot ⟨hj1, by omega, by simpa using hc⟩
  refine ⟨Nat.find hP, registerPlayer self player
      ((self.heap player).username ++ "^" ++ formatInt ((Nat.find hP : Nat) : Int)),
    hk1, hk3, hmin, ?_, ?_, ?_, ?_, ?_⟩
  · intro fuel hfuel
    have hl := renameLoop_least self.world.players (self.heap player).username (Nat.find hP) fuel
      hk1 (by omega) (by omega) hmin hk3
    simp [SV_WorldAddPlayer, hid, htaken, hl]
  · simp [registerPlayer]
  · simp [registerPlayer]
  · simp only [registerPlayer]
    exact CD_HashGet_put_self _ _ _
  · simp only [registerPlayer, Function.update_same]
    exact CD_MapGet_put_self _ _ _

/-- Witness of C3 (as amended): `alice`, `alice^1` and `alice^2` are taken and a further player
named `alice` joins. -/
theorem C3_addPlayer_rename_least_witness :
    ((crowdedRegistry "alice" 2).heap 5).entityId = 0 ∧
    CD_HashHasKey (crowdedRegistry "alice" 2).world.players
      ((crowdedRegistry "alice" 2).heap 5).username = true ∧
    (crowdedRegistry "alice" 2).world.players.length ≤ 2147483647 ∧
    ∃ (k : Nat) (r : Registry), 1 ≤ k ∧
      CD_HashHasKey (crowdedRegistry "alice" 2).world.players
        (((crowdedRegistry "alice" 2).heap 5).username ++ "^" ++ formatInt (k : Int)) = false ∧
      (∀ j : Nat, 1 ≤ j → j < k → CD_HashHasKey (crowdedRegistry "alice" 2).world.players
        (((crowdedRegistry "alice" 2).heap 5).username ++ "^" ++ formatInt (j : Int)) = true) ∧
      (∀ fuel : Nat, (crowdedRegistry "alice" 2).world.players.length ≤ fuel →
        SV_WorldAddPlayer false fuel (crowdedRegistry "alice" 2) 5 = Except.ok (true, r)) ∧
      (r.heap 5).username =
        ((crowdedRegistry "alice" 2).heap 5).username ++ "^" ++ formatInt (k : Int) ∧
      (r.heap 5).world = some (crowdedRegistry "alice" 2).world.addr ∧
      CD_HashGet r.world.players
        (((crowdedRegistry "alice" 2).heap 5).username ++ "^" ++ formatInt (k : Int)) = some 5 ∧
      CD_MapGet r.world.entities (r.heap 5).entityId = some 5 :=
  ⟨rfl, by decide, by decide,
    C3_addPlayer_rename_least (crowdedRegistry "alice" 2) 5 rfl (by decide) (by decide)⟩

theorem crowdedPlayers_hasKey (base : String) (n : Nat) (s : String) :
    CD_HashHasKey (crowdedPlayers base n) s = true ↔
      s = base ∨ ∃ i : Nat, 1 ≤ i ∧ i ≤ n ∧ s = base ++ "^" ++ formatInt (i : Int) := by
  rw [CD_HashHasKey_iff]
  simp only [crowdedPlayers, List.mem_cons, Prod.mk.injEq, List.mem_map, List.mem_range]
  constructor
  · rintro ⟨v, h | ⟨i, hi, h1, _⟩⟩
    · exact Or.inl h.1
    · exact Or.inr ⟨i + 1, by omega, by omega, h1.symm⟩
  · rintro (h | ⟨i, h1, h2, h3⟩)
    · exact ⟨0, Or.inl ⟨h, rfl⟩⟩
    · refine ⟨i, Or.inr ⟨i - 1, by omega, ?_, by omega⟩⟩
      rw [h3, Nat.sub_add_cancel h1]

theorem renameLoop_wraps (players : CDHash Nat) (base : String) (fuel : Nat)
    (hkeys : ∀ i : Nat, 1 ≤ i → i ≤ 2147483647 →
      CD_HashHasKey players (base ++ "^" ++ formatInt (i : Int)) = true)
    (hfree : CD_HashHasKey players (base ++ "^" ++ formatInt (-2147483648)) = false)
    (hfuel : 2147483648 ≤ fuel) :
    renameLoop players base fuel 1 =
      Except.ok (base ++ "^" ++ formatInt (-2147483648)) := by
  have hskip := renameLoop_skip players base 2147483647 fuel 1 (le_refl _) (by norm_num)
    (by norm_num)
    (fun j hj1 hj2 => by
      have := hkeys j.toNat (by omega) (by omega)
      rwa [Int.toNat_of_nonneg (by omega)] at this)
    (by omega)
  have hwrap : wrapInt32 (1 + ((2147483647 : Nat) : Int)) = -2147483648 := by
    unfold wrapInt32
    omega
  rw [hskip, hwrap]
  exact renameLoop_free _ _ _ _ (by omega) hfree

theorem crowdedRegistry_addPlayer (base : String) (n p fuel : Nat) (hn : n = 2147483647)
    (hp : n < p) (hfuel : n + 1 ≤ fuel) :
    SV_WorldAddPlayer false fuel (crowdedRegistry base n) p =
      Except.ok (true, registerPlayer (crowdedRegistry base n) p
        (base ++ "^" ++ formatInt (-2147483648))) := by
  have hne : ¬ p = 0 := by omega
  have hgt : ¬ p ≤ n := by omega
  have hplayer : (crowdedRegistry base n).heap p = ⟨base, none, 0, p⟩ := by
    simp [crowdedRegistry, hne, hgt]
  have hplayers : (crowdedRegistry base n).world.players = crowdedPlayers base n := rfl
  have htaken : CD_HashHasKey (crowdedPlayers base n) base = true :=
    (crowdedPlayers_hasKey base n base).mpr (Or.inl rfl)
  have hfree : CD_HashHasKey (crowdedPlayers base n)
      (base ++ "^" ++ formatInt (-2147483648)) = false := by
    rw [Bool.eq_false_iff]
    intro h
    rcases (crowdedPlayers_hasKey base n _).mp h with h | ⟨i, h1, _, h3⟩
    · exact suffixed_ne_base base _ h
    · have := suffixed_injective base _ _ h3
      omega
  have hloop := renameLoop_wraps (crowdedPlayers base n) base fuel
    (fun i hi1 hi2 => (crowdedPlayers_hasKey base n _).mpr (Or.inr ⟨i, hi1, by omega, rfl⟩))
    hfree (by omega)
  simp [SV_WorldAddPlayer, hplayer, hplayers, htaken, hloop]

/-- C3 (counterexample): in a world whose (finite) players map holds `a` and `a^1` ..
`a^2147483647`, a further player named `a` is registered under `a^-2147483648`: the `int`
counter wrapped, and the name is not `a^k` for any `k ≥ 1`. -/
theorem C3_rename_counter_wraps :
    ((crowdedRegistry "a" 2147483647).heap 2147483648).entityId = 0 ∧
    CD_HashHasKey (crowdedRegistry "a" 2147483647).world.players
      ((crowdedRegistry "a" 2147483647).heap 2147483648).username = true ∧
    SV_WorldAddPlayer false 2147483648 (crowdedRegistry "a" 2147483647) 2147483648 =
      Except.ok (true, registerPlayer (crowdedRegistry "a" 2147483647) 2147483648
        "a^-2147483648") ∧
    ((registerPlayer (crowdedRegistry "a" 2147483647) 2147483648 "a^-2147483648").heap
      2147483648).username = "a^-2147483648" ∧
    ∀ k : Nat, 1 ≤ k → "a^-2147483648" ≠ "a" ++ "^" ++ formatInt (k : Int) := by
  have hname : "a" ++ "^" ++ formatInt (-2147483648) = "a^-2147483648" := by decide
  have hplayer : (crowdedRegistry "a" 2147483647).heap 2147483648 =
      ⟨"a", none, 0, 2147483648⟩ := by
    simp [crowdedRegistry]
  refine ⟨by rw [hplayer], ?_, ?_, ?_, ?_⟩
  · rw [hplayer]
    exact (crowdedPlayers_hasKey "a" 2147483647 "a").mpr (Or.inl rfl)
  · rw [← hname]
    exact crowdedRegistry_addPlayer "a" 2147483647 2147483648 2147483648 rfl (by norm_num)
      (by norm_num)
  · simp [registerPlayer]
  · intro k hk h
    rw [← hname] at h
    have := suffixed_injective "a" _ _ h
    omega

/-! ## Several players joining under one name -/

theorem joinName_injective (base : String) (i j : Nat) (h : joinName base i = joinName base j) :
    i = j := by
  unfold joinName at h
  by_cases hi : i = 0 <;> by_cases hj : j = 0
  · omega
  · simp only [hi, hj, if_true, if_false] at h
    exact absurd h.symm (suffixed_ne_base base _)
  · simp only [hi, hj, if_true, if_false] at h
    exact absurd h (suffixed_ne_base base _)
  · simp only [hi, hj, if_false] at h
    have := suffixed_injective base _ _ h
    omega

theorem CD_HashPut_filter_self (m : CDHash Nat) (k : String) (v : Nat) :
    (CD_HashPut m k v).filter (fun e => e.1 == k) = [(k, v)] := by
  simp only [CD_HashPut, CD_HashDelete, List.filter_cons, beq_self_eq_true, if_true,
    List.filter_filter]
  congr 1
  apply List.filter_eq_nil_iff.mpr
  intro e _
  simp

theorem CD_HashPut_filter_other (m : CDHash Nat) (k s : String) (v : Nat) (h : k ≠ s) :
    (CD_HashPut m k v).filter (fun e => e.1 == s) = m.filter (fun e => e.1 == s) := by
  have hks : (k == s) = false := beq_eq_false_iff_ne.mpr h
  simp only [CD_HashPut, CD_HashDelete, List.filter_cons, hks, List.filter_filter]
  simp only [Bool.false_eq_true, if_false]
  apply List.filter_congr
  intro e _
  by_cases he : e.1 = s
  · have : ¬ e.1 = k := fun hk => h (hk.symm.trans he)
    simp [he]
    exact fun hk => h hk.symm
  · simp [he]

theorem addPlayers_snoc (standard : Bool) (fuel : Nat) (ps : List Nat) (p : Nat) (st : Registry) :
    addPlayers standard fuel (ps ++ [p]) st =
      match addPlayers standard fuel ps st with
      | Except.error e => Except.error e
      | Except.ok (bs, st1) =>
        match SV_WorldAddPlayer standard fuel st1 p with
        | Except.error e => Except.error e
        | Except.ok (b, st2) => Except.ok (bs ++ [b], st2) := by
  induction ps generalizing st with
  | nil =>
    simp only [List.nil_append, addPlayers]
  | cons q qs ih =>
    rw [List.cons_append, addPlayers, addPlayers]
    cases h : SV_WorldAddPlayer standard fuel st q with
    | error e => rfl
    | ok r =>
      obtain ⟨b, st1⟩ := r
      simp only
      rw [ih]
      cases h2 : addPlayers standard fuel qs st1 with
      | error e => rfl
      | ok r2 =>
        obtain ⟨bs, st2⟩ := r2
        simp only
        cases h3 : SV_WorldAddPlayer standard fuel st2 p with
        | error e => rfl
        | ok r3 => rfl

/-- One more player named `base` joins a world in which exactly `joinName base 0` ..
`joinName base (j - 1)` are the taken names of that form: it is registered as `joinName base j`. -/
theorem addPlayer_join (base : String) (r : Registry) (p j fuel : Nat)
    (hname : (r.heap p).username = base) (hid : (r.heap p).entityId = 0)
    (hj : j ≤ 2147483647) (hfuel : j ≤ fuel)
    (hbelow : ∀ i : Nat, i < j → CD_HashHasKey r.world.players (joinName base i) = true)
    (hfree : CD_HashHasKey r.world.players (joinName base j) = false) :
    SV_WorldAddPlayer false fuel r p = Except.ok (true, registerPlayer r p (joinName base j)) := by
  by_cases h0 : j = 0
  · subst h0
    have hf : CD_HashHasKey r.world.players base = false := by simpa [joinName] using hfree
    simp [SV_WorldAddPlayer, hid, hname, hf, joinName]
  · have ht : CD_HashHasKey r.world.players base = true := by
      simpa [joinName] using hbelow 0 (by omega)
    have hl := renameLoop_least r.world.players base j fuel (by omega) hj hfuel
      (fun i hi1 hi2 => by
        have := hbelow i hi2
        simpa [joinName, show ¬ i = 0 by omega] using this)
      (by simpa [joinName, h0] using hfree)
    simp [SV_WorldAddPlayer, hid, hname, ht, hl, joinName, h0]

theorem registerPlayer_players (r : Registry) (p : Nat) (name : String) :
    (registerPlayer r p name).world.players = CD_HashPut r.world.players name p := rfl

theorem registerPlayer_heap (r : Registry) (p : Nat) (name : String) :
    (registerPlayer r p name).heap = Function.update r.heap p
      { r.heap p with
        username := name
        world := some r.world.addr
        entityId := (SV_WorldGenerateEntityId r.world).1 } := rfl

/-- State after a run of joins under one base name: which keys the players map holds, what each
joined player is called and how it is stored, and that other player objects are untouched. -/
theorem addPlayers_join (base : String) (st : Registry) (fuel : Nat)
    (hB : ∀ i : Nat, CD_HashHasKey st.world.players (joinName base i) = false) :
    ∀ ps : List Nat, ps.Nodup →
      (∀ p ∈ ps, (st.heap p).username = base ∧ (st.heap p).entityId = 0) →
      ps.length ≤ 2147483648 → ps.length ≤ fuel →
      ∃ r, addPlayers false fuel ps st = Except.ok (List.replicate ps.length true, r) ∧
        (∀ s, CD_HashHasKey r.world.players s = true ↔
          CD_HashHasKey st.world.players s = true ∨ ∃ i, i < ps.length ∧ s = joinName base i) ∧
        (∀ i p, ps[i]? = some p → (r.heap p).username = joinName base i ∧
          r.world.players.filter (fun e => e.1 == joinName base i) = [(joinName base i, p)]) ∧
        (∀ q, q ∉ ps → r.heap q = st.heap q) := by
  intro ps
  induction ps using List.reverseRecOn with
  | nil =>
    intro _ _ _ _
    refine ⟨st, rfl, ?_, ?_, ?_⟩
    · intro s
      simp
    · intro i p h
      simp at h
    · intro q _
      rfl
  | append_singleton l p ih =>
    intro hnd hps hlen hfuel
    rw [List.length_append, List.length_singleton] at hlen hfuel
    have hndl : l.Nodup := (List.nodup_append.mp hnd).1
    have hpl : p ∉ l := by
      intro hm
      exact (List.nodup_append.mp hnd).2.2 hm (List.mem_singleton_self p) 
    obtain ⟨r, hrun, hkeys, hnames, hframe⟩ := ih hndl
      (fun q hq => hps q (List.mem_append_left _ hq)) (by omega) (by omega)
    have hp := hps p (List.mem_append_right _ (List.mem_singleton_self p))
    have hheap : r.heap p = st.heap p := hframe p hpl
    have hbelow : ∀ i : Nat, i < l.length →
        CD_HashHasKey r.world.players (joinName base i) = true :=
      fun i hi => (hkeys _).mpr (Or.inr ⟨i, hi, rfl⟩)
    have hfree : CD_HashHasKey r.world.players (joinName base l.length) = false := by
      rw [Bool.eq_false_iff]
      intro h
      rcases (hkeys _).mp h with h | ⟨i, hi, h⟩
      · rw [hB] at h
        exact Bool.false_ne_true h
      · have := joinName_injective base _ _ h
        omega
    have hadd := addPlayer_join base r p l.length fuel (by rw [hheap]; exact hp.1)
      (by rw [hheap]; exact hp.2) (by omega) (by omega) hbelow hfree
    refine ⟨registerPlayer r p (joinName base l.length), ?_, ?_, ?_, ?_⟩
    · rw [addPlayers_snoc, hrun]
      simp only [hadd, List.length_append, List.length_singleton, List.replicate_succ']
    · intro s
      rw [registerPlayer_players, CD_HashHasKey_put, hkeys, List.length_append,
        List.length_singleton]
      constructor
      · rintro (h | h | ⟨i, hi, h⟩)
        · exact Or.inr ⟨l.length, by omega, h⟩
        · exact Or.inl h
        · exact Or.inr ⟨i, by omega, h⟩
      · rintro (h | ⟨i, hi, h⟩)
        · exact Or.inr (Or.inl h)
        · by_cases e : i = l.length
          · exact Or.inl (e ▸ h)
          · exact Or.inr (Or.inr ⟨i, by omega, h⟩)
    · intro i q hq
      by_cases hi : i < l.length
      · rw [List.getElem?_append_left hi] at hq
        obtain ⟨h1, h2⟩ := hnames i q hq
        have hql : q ∈ l := List.getElem?_mem hq
        have hqp : q ≠ p := fun e => hpl (e ▸ hql)
        have hne : joinName base l.length ≠ joinName base i := by
          intro e
          have := joinName_injective base _ _ e
          omega
        constructor
        · rw [registerPlayer_heap, Function.update_noteq hqp]
          exact h1
        · rw [registerPlayer_players, CD_HashPut_filter_other _ _ _ _ hne]
          exact h2
      · rw [List.getElem?_append_right (by omega)] at hq
        have hi2 : i = l.length := by
          by_contra hne
          have : i - l.length ≠ 0 := by omega
          obtain ⟨k, hk⟩ := Nat.exists_eq_succ_of_ne_zero this
          rw [hk] at hq
          simp at hq
        subst hi2
        simp only [Nat.sub_self, List.getElem?_cons_zero, Option.some.injEq] at hq
        subst hq
        constructor
        · rw [registerPlayer_heap, Function.update_same]
        · rw [registerPlayer_players, CD_HashPut_filter_self]
    · intro q hq
      rw [List.mem_append, List.mem_singleton] at hq
      push_neg at hq
      rw [registerPlayer_heap, Function.update_noteq hq.2]
      exact hframe q hq.1

/-- C4 (as amended): for every N with `N ≤ 2^31` and every base username B, N calls of
`SV_WorldAddPlayer` under the rename policy, one per player of a duplicate-free list of player
objects all named B, on a world that initially holds no player named B or `B^k`, all return true
and leave the i-th player (counting from 0) named `joinName B i`, that is B for the first and
`B^i` for the others; each of these names is the key of exactly one entry of the players map,
the entry of that player, and the N usernames are pairwise distinct. -/
theorem C4_joins_distinct_names (base : String) (st : Registry) (ps : List Nat) (fuel : Nat)
    (hnd : ps.Nodup)
    (hps : ∀ p ∈ ps, (st.heap p).username = base ∧ (st.heap p).entityId = 0)
    (hB : CD_HashHasKey st.world.players base = false)
    (hBk : ∀ k : Nat, 1 ≤ k →
      CD_HashHasKey st.world.players (base ++ "^" ++ formatInt (k : Int)) = false)
    (hN : ps.length ≤ 2147483648) (hfuel : ps.length ≤ fuel) :
    ∃ r, addPlayers false fuel ps st = Except.ok (List.replicate ps.length true, r) ∧
      (∀ i p, ps[i]? = some p → (r.heap p).username = joinName base i ∧
        r.world.players.filter (fun e => e.1 == joinName base i) = [(joinName base i, p)]) ∧
      (ps.map (fun p => (r.heap p).username)).Nodup := by
  have hinit : ∀ i : Nat, CD_HashHasKey st.world.players (joinName base i) = false := by
    intro i
    by_cases hi : i = 0
    · simpa [joinName, hi] using hB
    · simpa [joinName, hi] using hBk i (by omega)
  obtain ⟨r, hrun, _, hnames, _⟩ := addPlayers_join base st fuel hinit ps hnd hps hN hfuel
  refine ⟨r, hrun, hnames, ?_⟩
  have hmap : ps.map (fun p => (r.heap p).username) =
      (List.range ps.length).map (joinName base) := by
    apply List.ext_getElem?
    intro i
    rw [List.getElem?_map, List.getElem?_map]
    by_cases hi : i < ps.length
    · rw [List.getElem?_eq_getElem hi, List.getElem?_range hi]
      simp only [Option.map_some']
      rw [(hnames i ps[i] (List.getElem?_eq_getElem hi)).1]
    · rw [List.getElem?_eq_none (by omega), List.getElem?_eq_none (by simp; omega)]
      rfl
  rw [hmap]
  exact (List.nodup_range _).map (fun a b h => joinName_injective base a b h)

/-- Witness of C4 (as amended): three players named `bob` join an empty world. -/
theorem C4_joins_distinct_names_witness :
    [3, 1, 2].Nodup ∧
    (∀ p ∈ [3, 1, 2], ((freshRegistry "bob").heap p).username = "bob" ∧
      ((freshRegistry "bob").heap p).entityId = 0) ∧
    CD_HashHasKey (freshRegistry "bob").world.players "bob" = false ∧
    (∀ k : Nat, 1 ≤ k → CD_HashHasKey (freshRegistry "bob").world.players
      ("bob" ++ "^" ++ formatInt (k : Int)) = false) ∧
    ∃ r, addPlayers false 3 [3, 1, 2] (freshRegistry "bob") =
        Except.ok (List.replicate [3, 1, 2].length true, r) ∧
      (∀ i p, [3, 1, 2][i]? = some p → (r.heap p).username = joinName "bob" i ∧
        r.world.players.filter (fun e => e.1 == joinName "bob" i) = [(joinName "bob" i, p)]) ∧
      ([3, 1, 2].map (fun p => (r.heap p).username)).Nodup :=
  ⟨by decide, fun _ _ => ⟨rfl, rfl⟩, rfl, fun _ _ => rfl,
    C4_joins_distinct_names "bob" (freshRegistry "bob") [3, 1, 2] 3 (by decide)
      (fun _ _ => ⟨rfl, rfl⟩) rfl (fun _ _ => rfl) (by decide) (by decide)⟩

theorem addPlayers_join_wraps (base : String) (n fuel : Nat) (hn : n = 2147483648)
    (hfuel : n + 1 ≤ fuel) :
    ∃ r, addPlayers false fuel (List.range (n + 1)) (freshRegistry base) =
        Except.ok (List.replicate (n + 1) true, r) ∧
      (r.heap n).username = base ++ "^" ++ formatInt (-2147483648) := by
  have hinit : ∀ i : Nat,
      CD_HashHasKey (freshRegistry base).world.players (joinName base i) = false :=
    fun _ => rfl
  obtain ⟨r, hrun, hkeys, _, hframe⟩ := addPlayers_join base (freshRegistry base) fuel hinit
    (List.range n) (List.nodup_range n) (fun _ _ => ⟨rfl, rfl⟩)
    (by rw [List.length_range]; omega) (by rw [List.length_range]; omega)
  rw [List.length_range] at hrun hkeys
  have hheap : r.heap n = ⟨base, none, 0, n⟩ := hframe n (by simp)
  have htaken : CD_HashHasKey r.world.players base = true :=
    (hkeys base).mpr (Or.inr ⟨0, by omega, by simp [joinName]⟩)
  have hfree : CD_HashHasKey r.world.players (base ++ "^" ++ formatInt (-2147483648)) = false := by
    rw [Bool.eq_false_iff]
    intro h
    rcases (hkeys _).mp h with h | ⟨i, _, h⟩
    · exact Bool.false_ne_true h
    · unfold joinName at h
      by_cases hi : i = 0
      · simp only [hi, if_true] at h
        exact suffixed_ne_base base _ h
      · simp only [hi, if_false] at h
        have := suffixed_injective base _ _ h
        omega
  have hloop := renameLoop_wraps r.world.players base fuel
    (fun i hi1 hi2 => (hkeys _).mpr (Or.inr ⟨i, by omega, by rw [joinName, if_neg (by omega)]⟩))
    hfree (by omega)
  refine ⟨registerPlayer r n (base ++ "^" ++ formatInt (-2147483648)), ?_, ?_⟩
  · rw [List.range_succ, addPlayers_snoc, hrun]
    simp [SV_WorldAddPlayer, hheap, htaken, hloop, List.replicate_succ']
  · rw [registerPlayer_heap, Function.update_same]

/-- C4 (counterexample): when 2^31 + 1 players named `a` join an empty world one after the
other, every call returns true, but the last player is named `a^-2147483648`, which is none of
`a`, `a^1`, .., `a^2147483648`. -/
theorem C4_join_counter_wraps :
    ∃ r, addPlayers false 2147483649 (List.range 2147483649) (freshRegistry "a") =
        Except.ok (List.replicate 2147483649 true, r) ∧
      (r.heap 2147483648).username = "a^-2147483648" ∧
      ∀ k : Nat, (r.heap 2147483648).username ≠ joinName "a" k := by
  have hname : "a" ++ "^" ++ formatInt (-2147483648) = "a^-2147483648" := by decide
  obtain ⟨r, h1, h2⟩ := addPlayers_join_wraps "a" 2147483648 2147483649 rfl (by norm_num)
  rw [hname] at h2
  refine ⟨r, h1, h2, ?_⟩
  intro k hk
  rw [h2, ← hname] at hk
  unfold joinName at hk
  by_cases h0 : k = 0
  · simp only [h0, if_true] at hk
    exact suffixed_ne_base "a" _ hk
  · simp only [h0, if_false] at hk
    have := suffixed_injective "a" _ _ hk
    omega

/-! ## The registry invariant -/

theorem assoc_find_iff {κ α : Type} [BEq κ] [LawfulBEq κ] (m : List (κ × α))
    (hnd : (m.map Prod.fst).Nodup) (k : κ) (v : α) :
    (m.find? (fun e => e.1 == k)).map (fun e => e.2) = some v ↔ (k, v) ∈ m := by
  induction m with
  | nil => simp
  | cons e m ih =>
    obtain ⟨k1, v1⟩ := e
    rw [List.map_cons, List.nodup_cons] at hnd
    by_cases hk : k1 = k
    · subst hk
      have hnot : (k1, v) ∉ m := fun hm => hnd.1 (List.mem_map.mpr ⟨(k1, v), hm, rfl⟩)
      simp only [List.find?_cons, beq_self_eq_true, Option.map_some', Option.some.injEq,
        List.mem_cons, Prod.mk.injEq, true_and]
      constructor
      · intro h
        exact Or.inl h.symm
      · rintro (h | h)
        · exact h.symm
        · exact absurd h hnot
    · have hb : (k1 == k) = false := beq_eq_false_iff_ne.mpr hk
      simp only [List.find?_cons, hb, List.mem_cons, Prod.mk.injEq]
      rw [ih hnd.2]
      constructor
      · intro h
        exact Or.inr h
      · rintro (h | h)
        · exact absurd h.1.symm hk
        · exact h

theorem assoc_unique {κ α : Type} [BEq κ] [LawfulBEq κ] (m : List (κ × α))
    (hnd : (m.map Prod.fst).Nodup) (k : κ) (v1 v2 : α) (h1 : (k, v1) ∈ m) (h2 : (k, v2) ∈ m) :
    v1 = v2 := by
  have e1 := (assoc_find_iff m hnd k v1).mpr h1
  have e2 := (assoc_find_iff m hnd k v2).mpr h2
  rw [e1] at e2
  exact Option.some.inj e2

theorem assoc_filter_keys_nodup {κ α : Type} (m : List (κ × α)) (f : κ × α → Bool)
    (hnd : (m.map Prod.fst).Nodup) : ((m.filter f).map Prod.fst).Nodup :=
  List.Nodup.sublist ((List.filter_sublist m).map Prod.fst) hnd

theorem CD_HashGet_iff (m : CDHash Nat) (hnd : (m.map Prod.fst).Nodup) (k : String) (v : Nat) :
    CD_HashGet m k = some v ↔ (k, v) ∈ m :=
  assoc_find_iff m hnd k v

theorem CD_MapGet_iff (m : CDMap Nat) (hnd : (m.map Prod.fst).Nodup) (k : Int) (v : Nat) :
    CD_MapGet m k = some v ↔ (k, v) ∈ m :=
  assoc_find_iff m hnd k v

theorem registryConsistent_of_inv (st : Registry) (k : Nat) (h : RegistryInv st k) :
    registryConsistent st := by
  intro p
  rw [CD_HashGet_iff _ h.playersKeys, CD_MapGet_iff _ h.entitiesKeys]
  constructor
  · intro hp
    exact (h.ofPlayers _ _ hp).2
  · intro he
    exact (h.ofEntities _ _ he).2.1

theorem renameLoop_ok_free (players : CDHash Nat) (base : String) (fuel : Nat) :
    ∀ (c : Int) (u : String), renameLoop players base fuel c = Except.ok u →
      CD_HashHasKey players u = false := by
  induction fuel with
  | zero =>
    intro c u h
    simp [renameLoop] at h
  | succ f ih =>
    intro c u h
    rw [renameLoop] at h
    by_cases hk : CD_HashHasKey players (base ++ "^" ++ formatInt c) = true
    · rw [if_pos hk] at h
      exact ih _ _ h
    · rw [if_neg hk] at h
      have e : base ++ "^" ++ formatInt c = u := Except.ok.inj h
      rw [← e]
      simpa using hk

/-- What a returning `SV_WorldAddPlayer` did: it rejected the player and only set the error, or it
registered the player, whose entity id was 0, under a name that was not taken. -/
theorem SV_WorldAddPlayer_cases (standard : Bool) (fuel : Nat) (st : Registry) (p : Nat)
    (b : Bool) (r : Registry) (h : SV_WorldAddPlayer standard fuel st p = Except.ok (b, r)) :
    (r = { st with world := { st.world with error := SVWorldError.SVWorldErrUsernameTaken } }) ∨
    (∃ u, r = registerPlayer st p u ∧ (st.heap p).entityId = 0 ∧
      CD_HashHasKey st.world.players u = false) := by
  unfold SV_WorldAddPlayer at h
  by_cases hid : (st.heap p).entityId = 0
  · simp only [hid, ne_eq, not_true_eq_false, if_false] at h
    cases ht : CD_HashHasKey st.world.players (st.heap p).username with
    | true =>
      simp only [ht, if_true] at h
      cases standard with
      | true =>
        simp only [if_true, Except.ok.injEq, Prod.mk.injEq] at h
        exact Or.inl h.2.symm
      | false =>
        simp only [Bool.false_eq_true, if_false] at h
        cases hl : renameLoop st.world.players (st.heap p).username fuel 1 with
        | error e => simp [hl] at h
        | ok u =>
          simp only [hl, Except.ok.injEq, Prod.mk.injEq] at h
          exact Or.inr ⟨u, h.2.symm, hid, renameLoop_ok_free _ _ _ _ _ hl⟩
    | false =>
      simp only [ht, Bool.false_eq_true, if_false, Except.ok.injEq, Prod.mk.injEq] at h
      exact Or.inr ⟨_, h.2.symm, hid, ht⟩
  · simp [hid] at h

theorem registerPlayer_inv (st : Registry) (p : Nat) (u : String) (k : Nat)
    (h : RegistryInv st k) (hid : (st.heap p).entityId = 0)
    (hfree : CD_HashHasKey st.world.players u = false) (hk : k < 4294967287) :
    RegistryInv (registerPlayer st p u) (k + 1) := by
  have hg : (SV_WorldGenerateEntityId st.world).1 = wrapInt32 (9 + ((k + 1 : Nat) : Int)) := by
    show (if st.world.lastGeneratedEntityId ≠ 0 then
      wrapInt32 (st.world.lastGeneratedEntityId + 1) else 10) = _
    rw [h.last]
    by_cases h0 : k = 0
    · subst h0
      simp [wrapInt32]
    · have hne : wrapInt32 (9 + (k : Int)) ≠ 0 := by
        unfold wrapInt32
        omega
      simp only [h0, if_false, ne_eq, hne, not_false_eq_true, if_true]
      unfold wrapInt32
      push_cast
      omega
  have eP0 : (registerPlayer st p u).world.players = CD_HashPut st.world.players u p := rfl
  have eE0 : (registerPlayer st p u).world.entities =
      CD_MapPut st.world.entities (SV_WorldGenerateEntityId st.world).1 p := rfl
  have eL0 : (registerPlayer st p u).world.lastGeneratedEntityId =
      (SV_WorldGenerateEntityId st.world).1 := rfl
  have eH0 := registerPlayer_heap st p u
  generalize (SV_WorldGenerateEntityId st.world).1 = g at hg eE0 eL0 eH0
  have hgne : ∀ i q, (i, q) ∈ st.world.entities → i ≠ g := by
    intro i q hm e
    obtain ⟨m, hm1, hm2, hi⟩ := (h.ofEntities i q hm).2.2
    rw [hi, hg] at e
    unfold wrapInt32 at e
    push_cast at e
    omega
  have hpE : ∀ i, (i, p) ∉ st.world.entities := by
    intro i hm
    obtain ⟨e, _, m, hm1, hm2, hi⟩ := h.ofEntities i p hm
    rw [hid] at e
    rw [← e] at hi
    unfold wrapInt32 at hi
    omega
  have hpP : ∀ n, (n, p) ∉ st.world.players := by
    intro n hm
    exact hpE _ (h.ofPlayers n p hm).2
  have hukey : u ∉ st.world.players.map Prod.fst := by
    intro hm
    obtain ⟨⟨k, v⟩, hkv, rfl⟩ := List.mem_map.mp hm
    have := (CD_HashHasKey_iff st.world.players k).mpr ⟨v, hkv⟩
    rw [hfree] at this
    exact Bool.false_ne_true this
  have hgkey : g ∉ st.world.entities.map Prod.fst := by
    intro hm
    obtain ⟨⟨j, v⟩, hjv, rfl⟩ := List.mem_map.mp hm
    exact hgne j v hjv rfl
  have eP : (registerPlayer st p u).world.players = (u, p) :: st.world.players := by
    rw [eP0, CD_HashPut, CD_HashDelete, List.filter_eq_self.mpr]
    intro e he
    have : e.1 ≠ u := fun hk => hukey (List.mem_map.mpr ⟨e, he, hk⟩)
    simpa using this
  have eE : (registerPlayer st p u).world.entities = (g, p) :: st.world.entities := by
    rw [eE0, CD_MapPut, CD_MapDelete, List.filter_eq_self.mpr]
    intro e he
    have : e.1 ≠ g := fun hk => hgkey (List.mem_map.mpr ⟨e, he, hk⟩)
    simpa using this
  refine ⟨?_, ?_, ?_, ?_, by omega, ?_⟩
  · rw [eP, List.map_cons, List.nodup_cons]
    exact ⟨hukey, h.playersKeys⟩
  · rw [eE, List.map_cons, List.nodup_cons]
    exact ⟨hgkey, h.entitiesKeys⟩
  · intro n q hm
    rw [eP, List.mem_cons] at hm
    rw [eE, eH0]
    rcases hm with hm | hm
    · obtain ⟨rfl, rfl⟩ := Prod.mk.inj hm
      simp
    · have hq : q ≠ p := fun e => hpP n (e ▸ hm)
      rw [Function.update_noteq hq]
      exact ⟨(h.ofPlayers n q hm).1, List.mem_cons_of_mem _ (h.ofPlayers n q hm).2⟩
  · intro i q hm
    rw [eE, List.mem_cons] at hm
    rw [eP, eH0]
    rcases hm with hm | hm
    · obtain ⟨rfl, rfl⟩ := Prod.mk.inj hm
      refine ⟨by simp, by simp, k + 1, by omega, le_refl _, hg⟩
    · have hq : q ≠ p := fun e => hpE i (e ▸ hm)
      rw [Function.update_noteq hq]
      obtain ⟨h1, h2, m, hm1, hm2, hi⟩ := h.ofEntities i q hm
      exact ⟨h1, List.mem_cons_of_mem _ h2, m, hm1, by omega, hi⟩
  · rw [eL0, hg, if_neg (by omega)]

theorem SV_WorldRemovePlayer_inv (st r : Registry) (p k : Nat) (h : RegistryInv st k)
    (hreg : isRegistered st p) (hrun : SV_WorldRemovePlayer st p = Except.ok r) :
    RegistryInv r k := by
  unfold SV_WorldRemovePlayer at hrun
  by_cases hw : (st.heap p).world = some st.world.addr
  · simp only [hw, ne_eq, not_true_eq_false, if_false, Except.ok.injEq] at hrun
    subst hrun
    have hpP : ((st.heap p).username, p) ∈ st.world.players :=
      (CD_HashGet_iff _ h.playersKeys _ _).mp hreg
    have hpE : ((st.heap p).entityId, p) ∈ st.world.entities := (h.ofPlayers _ _ hpP).2
    refine ⟨?_, ?_, ?_, ?_, h.count, h.last⟩
    · exact assoc_filter_keys_nodup _ _ h.playersKeys
    · exact assoc_filter_keys_nodup _ _ h.entitiesKeys
    · intro n q hm
      simp only [CD_HashDelete, List.mem_filter, Bool.not_eq_true', beq_eq_false_iff_ne,
        ne_eq] at hm
      obtain ⟨h1, h2⟩ := h.ofPlayers n q hm.1
      refine ⟨h1, ?_⟩
      simp only [CD_MapDelete, List.mem_filter, Bool.not_eq_true', beq_eq_false_iff_ne, ne_eq]
      refine ⟨h2, ?_⟩
      intro e
      rw [e] at h2
      have hqp : q = p := assoc_unique _ h.entitiesKeys _ _ _ h2 hpE
      rw [hqp] at h1
      exact hm.2 h1.symm
    · intro i q hm
      simp only [CD_MapDelete, List.mem_filter, Bool.not_eq_true', beq_eq_false_iff_ne,
        ne_eq] at hm
      obtain ⟨h1, h2, h3⟩ := h.ofEntities i q hm.1
      refine ⟨h1, ?_, h3⟩
      simp only [CD_HashDelete, List.mem_filter, Bool.not_eq_true', beq_eq_false_iff_ne, ne_eq]
      refine ⟨h2, ?_⟩
      intro e
      rw [e] at h2
      have hqp : q = p := assoc_unique _ h.playersKeys _ _ _ h2 hpP
      rw [hqp] at h1
      exact hm.2 h1.symm
  · simp [hw] at hrun

theorem registryRun_inv (fuel : Nat) : ∀ (cs : List RegistryCall) (st r : Registry) (k : Nat),
    RegistryInv st k → k + cs.length ≤ 4294967287 → removesRegistered fuel cs st = true →
    registryRun fuel cs st = Except.ok r → ∃ k1, RegistryInv r k1 := by
  intro cs
  induction cs with
  | nil =>
    intro st r k hinv _ _ hrun
    simp only [registryRun, Except.ok.injEq] at hrun
    exact ⟨k, hrun ▸ hinv⟩
  | cons c cs ih =>
    intro st r k hinv hlen hrem hrun
    rw [List.length_cons] at hlen
    rw [registryRun] at hrun
    simp only [removesRegistered, Bool.and_eq_true] at hrem
    cases hstep : registryStep fuel st c with
    | error e => simp [hstep] at hrun
    | ok st1 =>
      simp only [hstep] at hrun hrem
      have hnext : RegistryInv st1 k ∨ RegistryInv st1 (k + 1) := by
        cases c with
        | add standard p =>
          simp only [registryStep] at hstep
          cases hadd : SV_WorldAddPlayer standard fuel st p with
          | error e => simp [hadd] at hstep
          | ok res =>
            obtain ⟨b, r1⟩ := res
            simp only [hadd, Except.ok.injEq] at hstep
            subst hstep
            rcases SV_WorldAddPlayer_cases standard fuel st p b r1 hadd with e | ⟨u, e, hid, hfree⟩
            · subst e
              exact Or.inl ⟨hinv.playersKeys, hinv.entitiesKeys, hinv.ofPlayers,
                hinv.ofEntities, hinv.count, hinv.last⟩
            · subst e
              exact Or.inr (registerPlayer_inv st p u k hinv hid hfree (by omega))
        | remove p =>
          simp only [registryStep] at hstep
          exact Or.inl (SV_WorldRemovePlayer_inv st st1 p k hinv (by simpa using hrem.1) hstep)
      rcases hnext with h1 | h1
      · exact ih st1 r k h1 (by omega) hrem.2 hrun
      · exact ih st1 r (k + 1) h1 (by omega) hrem.2 hrun

/-- C5 (as amended): in every state reached from `SV_CreateWorld` (with `World.create` handlers
that leave the registry fields alone) by at most 2^32 - 9 calls of `SV_WorldAddPlayer`, under
either policy, and of `SV_WorldRemovePlayer` for players registered at the time of the call, a
player is the value of the players map under its current username if and only if it is the
value of the entities map under its entity id. -/
theorem C5_registry_consistent (dispatchCreate : SVWorld → SVWorld) (addr : Nat) (name : String)
    (uninit : SVBlockPosition) (heap : PlayerHeap) (fuel : Nat) (cs : List RegistryCall)
    (r : Registry)
    (hcreate : ∀ w, (dispatchCreate w).players = w.players ∧
      (dispatchCreate w).entities = w.entities ∧
      (dispatchCreate w).lastGeneratedEntityId = w.lastGeneratedEntityId)
    (hlen : cs.length ≤ 4294967287)
    (hrem : removesRegistered fuel cs
      ⟨SV_CreateWorld dispatchCreate addr name uninit, heap⟩ = true)
    (hrun : registryRun fuel cs ⟨SV_CreateWorld dispatchCreate addr name uninit, heap⟩ =
      Except.ok r) :
    registryConsistent r := by
  obtain ⟨h1, h2, h3⟩ := hcreate
    { addr := addr, name := name, dimension := SVWorldDimension.SVWorldNormal, time := 0,
      spawnPosition := uninit, players := [], entities := [], chunks := [],
      lastGeneratedEntityId := 0, error := SVWorldError.CDNull }
  have hinit : RegistryInv ⟨SV_CreateWorld dispatchCreate addr name uninit, heap⟩ 0 := by
    refine ⟨?_, ?_, ?_, ?_, by omega, ?_⟩
    · show ((SV_CreateWorld dispatchCreate addr name uninit).players.map Prod.fst).Nodup
      rw [SV_CreateWorld, h1]
      exact List.nodup_nil
    · show ((SV_CreateWorld dispatchCreate addr name uninit).entities.map Prod.fst).Nodup
      rw [SV_CreateWorld, h2]
      exact List.nodup_nil
    · intro n p hm
      have hm2 : (n, p) ∈ (SV_CreateWorld dispatchCreate addr name uninit).players := hm
      rw [SV_CreateWorld, h1] at hm2
      simp at hm2
    · intro i p hm
      have hm2 : (i, p) ∈ (SV_CreateWorld dispatchCreate addr name uninit).entities := hm
      rw [SV_CreateWorld, h2] at hm2
      simp at hm2
    · show (SV_CreateWorld dispatchCreate addr name uninit).lastGeneratedEntityId = _
      rw [SV_CreateWorld, h3]
      rfl
  obtain ⟨k1, hk1⟩ := registryRun_inv fuel cs _ r 0 hinit (by omega) hrem hrun
  exact registryConsistent_of_inv r k1 hk1

/-- Witness of C5 (as amended): two players named `a` join under the rename policy, the first
one leaves, and a third one joins under the reject policy. -/
theorem C5_registry_consistent_witness :
    (∀ w : SVWorld, (id w).players = w.players ∧ (id w).entities = w.entities ∧
      (id w).lastGeneratedEntityId = w.lastGeneratedEntityId) ∧
    [RegistryCall.add false 1, RegistryCall.add false 2, RegistryCall.remove 1,
      RegistryCall.add true 3].length ≤ 4294967287 ∧
    removesRegistered 5 [RegistryCall.add false 1, RegistryCall.add false 2,
      RegistryCall.remove 1, RegistryCall.add true 3]
      ⟨SV_CreateWorld id 1 "world" ⟨0, 0, 0⟩, fun a => ⟨"a", none, 0, a⟩⟩ = true ∧
    ∃ r, registryRun 5 [RegistryCall.add false 1, RegistryCall.add false 2,
        RegistryCall.remove 1, RegistryCall.add true 3]
        ⟨SV_CreateWorld id 1 "world" ⟨0, 0, 0⟩, fun a => ⟨"a", none, 0, a⟩⟩ = Except.ok r ∧
      r.world.players = [("a", 3), ("a^1", 2)] ∧ r.world.entities = [(12, 3), (11, 2)] ∧
      registryConsistent r :=
  ⟨fun _ => ⟨rfl, rfl, rfl⟩, by decide, by decide, _, rfl, by decide, by decide,
    C5_registry_consistent id 1 "world" ⟨0, 0, 0⟩ (fun a => ⟨"a", none, 0, a⟩) 5
      [RegistryCall.add false 1, RegistryCall.add false 2, RegistryCall.remove 1,
        RegistryCall.add true 3] _
      (fun _ => ⟨rfl, rfl, rfl⟩) (by decide) (by decide) rfl⟩

/-- A second `SV_WorldRemovePlayer` for a player that left: in a fresh world, player 1 named
`a` joins and leaves, player 2 named `a` joins, and the function is called once more for
player 1, whose world pointer still passes the assertion. The call deletes the name entry of
player 2, which is then in the entities map (under its id 11) but in no entry of the players
map. -/
theorem remove_twice_breaks_registry :
    ∃ r, registryRun 0
        [RegistryCall.add true 1, RegistryCall.remove 1, RegistryCall.add true 2,
          RegistryCall.remove 1] (freshRegistry "a") = Except.ok r ∧
      r.world.players = [] ∧ r.world.entities = [(11, 2)] ∧
      (r.heap 2).username = "a" ∧ (r.heap 2).entityId = 11 ∧
      ¬ registryConsistent r := by
  refine ⟨_, rfl, by decide, by decide, by decide, by decide, ?_⟩
  intro h
  have h2 := (h 2).mpr (by decide)
  revert h2
  decide

theorem CD_HashGet_put_other {α : Type} (m : CDHash α) (k s : String) (v : α) (h : s ≠ k) :
    CD_HashGet (CD_HashPut m k v) s = CD_HashGet m s := by
  have hks : (k == s) = false := beq_eq_false_iff_ne.mpr (fun e => h e.symm)
  unfold CD_HashGet CD_HashPut CD_HashDelete
  simp only [List.find?_cons, hks]
  rw [assoc_find_filter_other _ _ _ h]

theorem registryRun_append (fuel : Nat) (cs ds : List RegistryCall) :
    ∀ st : Registry, registryRun fuel (cs ++ ds) st =
      match registryRun fuel cs st with
      | Except.error e => Except.error e
      | Except.ok st1 => registryRun fuel ds st1 := by
  induction cs with
  | nil =>
    intro st
    rfl
  | cons c cs ih =>
    intro st
    rw [List.cons_append, registryRun, registryRun]
    cases registryStep fuel st c with
    | error e => rfl
    | ok st1 => exact ih st1

theorem removesRegistered_adds (fuel : Nat) (standard : Bool) (ps : List Nat) :
    ∀ st : Registry,
      removesRegistered fuel (ps.map (RegistryCall.add standard)) st = true := by
  induction ps with
  | nil =>
    intro st
    rfl
  | cons p ps ih =>
    intro st
    simp only [List.map_cons, removesRegistered, Bool.true_and]
    cases registryStep fuel st (RegistryCall.add standard p) with
    | error e => rfl
    | ok st1 => exact ih st1

theorem joinStep (fuel : Nat) (st : Registry) (k : Nat) (h : JoinedUpTo st k) :
    registryStep fuel st (RegistryCall.add true k) =
      Except.ok (registerPlayer st k (formatInt (k : Int))) := by
  have hheap := h.rest k (le_refl k)
  have hfree : CD_HashHasKey st.world.players (formatInt (k : Int)) = false := by
    rw [Bool.eq_false_iff]
    intro hk
    obtain ⟨i, hi, e⟩ := h.keys _ hk
    have := formatInt_injective _ _ e
    omega
  simp [registryStep, SV_WorldAddPlayer, hheap, hfree]

theorem joinStep_players (st : Registry) (k : Nat) (h : JoinedUpTo st k) :
    CD_HashGet (registerPlayer st k (formatInt (k : Int))).world.players (formatInt 0) =
        some 0 ∧
      ((registerPlayer st k (formatInt (k : Int))).heap 0).username = formatInt 0 ∧
      ((registerPlayer st k (formatInt (k : Int))).heap 0).entityId = 10 := by
  have hpos := h.pos
  have hne : formatInt 0 ≠ formatInt (k : Int) := by
    intro e
    have := formatInt_injective _ _ e
    omega
  have h0 : (0 : Nat) ≠ k := by omega
  refine ⟨?_, ?_, ?_⟩
  · rw [registerPlayer_players, CD_HashGet_put_other _ _ _ _ hne]
    exact h.first
  · rw [registerPlayer_heap, Function.update_noteq h0]
    exact h.firstName
  · rw [registerPlayer_heap, Function.update_noteq h0]
    exact h.firstId

theorem joinStep_inv (st : Registry) (k : Nat) (h : JoinedUpTo st k) (hk : k < 4294967287) :
    JoinedUpTo (registerPlayer st k (formatInt (k : Int))) (k + 1) := by
  have hpos := h.pos
  obtain ⟨h1, h2, h3⟩ := joinStep_players st k h
  refine ⟨h1, h2, h3, ?_, ?_, ?_, by omega⟩
  · intro a ha
    rw [registerPlayer_heap, Function.update_noteq (by omega : a ≠ k)]
    exact h.rest a (by omega)
  · intro key hkey
    rw [registerPlayer_players] at hkey
    rcases (CD_HashHasKey_put _ _ _ _).mp hkey with e | e
    · exact ⟨k, by omega, e⟩
    · obtain ⟨i, hi, e1⟩ := h.keys key e
      exact ⟨i, by omega, e1⟩
  · show (if st.world.lastGeneratedEntityId ≠ 0 then
      wrapInt32 (st.world.lastGeneratedEntityId + 1) else 10) = _
    rw [h.last]
    have hne : wrapInt32 (9 + (k : Int)) ≠ 0 := by
      unfold wrapInt32
      omega
    simp only [ne_eq, hne, not_false_eq_true, if_true]
    unfold wrapInt32
    push_cast
    omega

theorem joinRun (fuel : Nat) : ∀ (n k : Nat) (st : Registry), JoinedUpTo st k →
    k + n ≤ 4294967287 →
    ∃ r, registryRun fuel ((List.range' k n).map (RegistryCall.add true)) st = Except.ok r ∧
      JoinedUpTo r (k + n) := by
  intro n
  induction n with
  | zero =>
    intro k st h _
    exact ⟨st, rfl, h⟩
  | succ n ih =>
    intro k st h hk
    obtain ⟨r, hrun, hr⟩ := ih (k + 1) _ (joinStep_inv st k h (by omega)) (by omega)
    refine ⟨r, ?_, ?_⟩
    · rw [List.range'_succ, List.map_cons, registryRun, joinStep fuel st k h]
      exact hrun
    · have e : k + (n + 1) = k + 1 + n := by omega
      rw [e]
      exact hr

theorem joinCalls_split (n : Nat) :
    joinCalls (n + 2) =
      RegistryCall.add true 0 ::
        ((List.range' 1 n).map (RegistryCall.add true) ++ [RegistryCall.add true (n + 1)]) := by
  unfold joinCalls
  rw [List.range_eq_range', List.range'_succ, List.range'_concat]
  simp [Nat.add_comm]

/-- Entity id 10 is given out a second time: when 2^32 - 8 players join `namedRegistry` one after
the other, the last join is given the id 10 that player 0 still holds, and takes over its entry
of the entities map. -/
theorem joinCalls_reuse_id (fuel n : Nat) (hn : n = 4294967286) :
    ∃ r, registryRun fuel (joinCalls (n + 2)) namedRegistry = Except.ok r ∧
      (r.heap 0).username = formatInt 0 ∧ (r.heap 0).entityId = 10 ∧
      CD_HashGet r.world.players (formatInt 0) = some 0 ∧
      CD_MapGet r.world.entities 10 = some (n + 1) := by
  have hfirst : registryStep fuel namedRegistry (RegistryCall.add true 0) =
      Except.ok (registerPlayer namedRegistry 0 (formatInt 0)) := rfl
  have h1 : JoinedUpTo (registerPlayer namedRegistry 0 (formatInt 0)) 1 := by
    refine ⟨rfl, rfl, rfl, ?_, ?_, rfl, le_refl 1⟩
    · intro a ha
      rw [registerPlayer_heap, Function.update_noteq (by omega : a ≠ 0)]
      rfl
    · intro key hkey
      rw [registerPlayer_players] at hkey
      rcases (CD_HashHasKey_put _ _ _ _).mp hkey with e | e
      · exact ⟨0, by omega, e⟩
      · exact absurd e (by simp [namedRegistry, SV_CreateWorld, CD_HashHasKey])
  obtain ⟨r1, hrun1, hr1⟩ := joinRun fuel n 1 _ h1 (by omega)
  have hlast : r1.world.lastGeneratedEntityId = 0 := by
    rw [hr1.last, hn]
    decide
  obtain ⟨p1, p2, p3⟩ := joinStep_players r1 (1 + n) hr1
  refine ⟨registerPlayer r1 (1 + n) (formatInt ((1 + n : Nat) : Int)), ?_, p2, p3, p1, ?_⟩
  · rw [joinCalls_split, registryRun, hfirst]
    simp only []
    rw [registryRun_append, hrun1]
    simp only [registryRun, Nat.add_comm n 1, joinStep fuel r1 (1 + n) hr1]
  · have hg : (SV_WorldGenerateEntityId r1.world).1 = 10 := by
      simp [SV_WorldGenerateEntityId, hlast]
    show CD_MapGet (CD_MapPut r1.world.entities (SV_WorldGenerateEntityId r1.world).1 (1 + n))
      10 = some (n + 1)
    rw [hg, CD_MapGet_put_self, Nat.add_comm]

theorem id_reuse_breaks_registry :
    (joinCalls 4294967288).length = 4294967288 ∧
    removesRegistered 0 (joinCalls 4294967288) namedRegistry = true ∧
    ∃ r, registryRun 0 (joinCalls 4294967288) namedRegistry = Except.ok r ∧
      (r.heap 0).username = "0" ∧ (r.heap 0).entityId = 10 ∧
      CD_HashGet r.world.players "0" = some 0 ∧
      CD_MapGet r.world.entities 10 = some 4294967287 ∧
      ¬ registryConsistent r := by
  have hname : formatInt 0 = "0" := by decide
  obtain ⟨r, hrun, h1, h2, h3, h4⟩ := joinCalls_reuse_id 0 4294967286 rfl
  rw [hname] at h1 h3
  refine ⟨by simp [joinCalls], removesRegistered_adds 0 true _ namedRegistry,
    r, hrun, h1, h2, h3, h4, ?_⟩
  intro hcons
  have h5 := (hcons 0).mp (by rw [h1]; exact h3)
  rw [h2, h4] at h5
  exact absurd (Option.some.inj h5) (by decide)

/-- C5 (counterexample), in two parts. First: in a fresh world, player 1 named `a` joins and
leaves, player 2 named `a` joins, and `SV_WorldRemovePlayer` is called once more for player 1,
whose world pointer still passes the assertion; the call deletes the name entry of player 2,
which is then in the entities map (under its id 11) but in no entry of the players map.
Second: 2^32 - 8 players with different names join a fresh world and nobody leaves; the entity
ids have gone round, the last join is given the id 10 of player 0, and player 0 is then in the
players map under its name but no longer in the entities map under its id. -/
theorem C5_registry_breaks :
    (∃ r, registryRun 0
        [RegistryCall.add true 1, RegistryCall.remove 1, RegistryCall.add true 2,
          RegistryCall.remove 1] (freshRegistry "a") = Except.ok r ∧
      r.world.players = [] ∧ r.world.entities = [(11, 2)] ∧
      (r.heap 2).username = "a" ∧ (r.heap 2).entityId = 11 ∧
      ¬ registryConsistent r) ∧
    ((joinCalls 4294967288).length = 4294967288 ∧
      removesRegistered 0 (joinCalls 4294967288) namedRegistry = true ∧
      ∃ r, registryRun 0 (joinCalls 4294967288) namedRegistry = Except.ok r ∧
        (r.heap 0).username = "0" ∧ (r.heap 0).entityId = 10 ∧
        CD_HashGet r.world.players "0" = some 0 ∧
        CD_MapGet r.world.entities 10 = some 4294967287 ∧
        ¬ registryConsistent r) :=
  ⟨remove_twice_breaks_registry, id_reuse_breaks_registry⟩

/-! # Properties of the chunk store -/

theorem gridIndex_inExtent (x z : Int) (h : inExtent x z) :
    gridIndex x z = Except.ok ((x + 100).toNat, (z + 100).toNat) := by
  simp [gridIndex, h]

theorem gridIndex_outside (x z : Int) (h : ¬ inExtent x z) :
    gridIndex x z = Except.error (Stop.outOfBounds (x + 100) (z + 100)) := by
  simp [gridIndex, h]

theorem sameBuffers_copyChunkBuffers (dst src : SVChunk) :
    sameBuffers (copyChunkBuffers dst src) src := by
  refine ⟨?_, ?_, ?_, ?_, ?_⟩ <;> intro i hi <;> simp [copyChunkBuffers, memcpy, hi]

theorem sameBuffers_trans (a b c : SVChunk) (h1 : sameBuffers a b) (h2 : sameBuffers b c) :
    sameBuffers a c := by
  obtain ⟨a1, a2, a3, a4, a5⟩ := h1
  obtain ⟨b1, b2, b3, b4, b5⟩ := h2
  exact ⟨fun i hi => (a1 i hi).trans (b1 i hi), fun i hi => (a2 i hi).trans (b2 i hi),
    fun i hi => (a3 i hi).trans (b3 i hi), fun i hi => (a4 i hi).trans (b4 i hi),
    fun i hi => (a5 i hi).trans (b5 i hi)⟩

theorem cdnbt_WorldSetChunk_inExtent (st : NbtStore) (world : SVWorld) (x z : Int)
    (chunk : SVChunk) (h : inExtent x z) :
    cdnbt_WorldSetChunk st world x z chunk =
      Except.ok (true,
        { st with
          chunks := (gridSet st.chunks (x + 100).toNat (z + 100).toNat
            (copyChunkBuffers (st.chunks (x + 100).toNat (z + 100).toNat) chunk)) }) := by
  simp [cdnbt_WorldSetChunk, gridIndex_inExtent x z h]

/-- C6 (as amended): for every coordinate (x,z) inside the extent whose key `x_z` has at most 7
characters and every chunk C with position (x,z), when the key is not in the chunk cache of the
world and the chunk file parses and validates or the coordinate is marked in the generated
grid, `SV_WorldSetChunk` followed by `SV_WorldGetChunk`, with the NBT handlers bound, returns a
chunk whose five buffers are byte-equal to those of C. -/
theorem C6_set_then_get (generate : SVWorld → Int → Int → SVChunk → CDError × SVChunk)
    (file : NbtParse) (st : NbtStore) (world : SVWorld) (x z : Int) (C fresh : SVChunk)
    (hext : inExtent x z) (hkey : (chunkKey x z).length ≤ 7) (hpos : C.position = ⟨x, z⟩)
    (hcache : CD_HashHasKey world.chunks (chunkKey x z) = false)
    (hfile : chunkFileRejected file = false ∨
      st.chunk_generated (x + 100).toNat (z + 100).toNat = 1) :
    ∃ st1 st2 w2 c,
      SV_WorldSetChunk [cdnbt_WorldSetChunk] st world C = Except.ok st1 ∧
      SV_WorldGetChunk [cdnbt_WorldGetChunk generate file] st1 world x z fresh =
        Except.ok (some c, st2, w2) ∧
      sameBuffers c C := by
  have hset := cdnbt_WorldSetChunk_inExtent st world x z C hext
  have hcond : (chunkFileRejected file &&
      !(st.chunk_generated (x + 100).toNat (z + 100).toNat == 1)) = false := by
    rcases hfile with h | h
    · simp [h]
    · simp [h]
  refine ⟨{ st with
      chunks := (gridSet st.chunks (x + 100).toNat (z + 100).toNat
        (copyChunkBuffers (st.chunks (x + 100).toNat (z + 100).toNat) C)) },
    { st with
      chunks := (gridSet st.chunks (x + 100).toNat (z + 100).toNat
        (copyChunkBuffers (st.chunks (x + 100).toNat (z + 100).toNat) C)) },
    { world with
      chunks := CD_HashPut world.chunks (chunkKey x z)
        (copyChunkBuffers fresh
          (copyChunkBuffers (st.chunks (x + 100).toNat (z + 100).toNat) C)) },
    copyChunkBuffers fresh (copyChunkBuffers (st.chunks (x + 100).toNat (z + 100).toNat) C),
    ?_, ?_, ?_⟩
  · simp [SV_WorldSetChunk, CD_EventDispatch, hpos, hset]
  · have hfit : ¬ 8 < (chunkKey x z).length + 1 := by omega
    simp [SV_WorldGetChunk, hfit, hcache, CD_EventDispatchWithError, dispatchQueryFrom,
      cdnbt_WorldGetChunk, gridIndex_inExtent x z hext, hcond, gridSet, CDOk]
  · exact sameBuffers_trans _ _ _ (sameBuffers_copyChunkBuffers _ _)
      (sameBuffers_copyChunkBuffers _ _)

/-- Witness of C6 (as amended): the chunk at (3,-4), marked as generated, is set and read back
through a world with an empty chunk cache while its file is missing. -/
theorem C6_set_then_get_witness :
    inExtent 3 (-4) ∧ (chunkKey 3 (-4)).length ≤ 7 ∧
    (uniformChunk 3 (-4) 9).position = ⟨3, -4⟩ ∧
    CD_HashHasKey (SV_CreateWorld id 1 "world" ⟨0, 0, 0⟩).chunks (chunkKey 3 (-4)) = false ∧
    (chunkFileRejected missingFile = false ∨
      (markedStore 0).chunk_generated ((3 : Int) + 100).toNat ((-4 : Int) + 100).toNat = 1) ∧
    ∃ st1 st2 w2 c,
      SV_WorldSetChunk [cdnbt_WorldSetChunk] (markedStore 0)
        (SV_CreateWorld id 1 "world" ⟨0, 0, 0⟩) (uniformChunk 3 (-4) 9) = Except.ok st1 ∧
      SV_WorldGetChunk [cdnbt_WorldGetChunk (uniformGenerator 5) missingFile] st1
        (SV_CreateWorld id 1 "world" ⟨0, 0, 0⟩) 3 (-4) (uniformChunk 0 0 0) =
        Except.ok (some c, st2, w2) ∧
      sameBuffers c (uniformChunk 3 (-4) 9) :=
  ⟨by decide, by decide, rfl, rfl, Or.inr rfl,
    C6_set_then_get (uniformGenerator 5) missingFile (markedStore 0)
      (SV_CreateWorld id 1 "world" ⟨0, 0, 0⟩) 3 (-4) (uniformChunk 3 (-4) 9) (uniformChunk 0 0 0)
      (by decide) (by decide) rfl rfl (Or.inr rfl)⟩

/-- C6 (counterexample): a chunk of bytes 1 is set at (0,0) and read back. With an empty chunk
cache, no chunk file and no generated mark, the read returns the chunk the generator makes
(bytes 0); with a chunk of bytes 7 cached under the key of (0,0), the read returns that one.
At (-100,-100), inside the extent, the read returns nothing: the key `-100_-100` and its
terminating zero take 10 bytes of the 8-byte buffer. -/
theorem C6_get_ignores_set :
    (∃ st1 st2 w2 c,
      SV_WorldSetChunk [cdnbt_WorldSetChunk] (uniformStore 3)
        (SV_CreateWorld id 1 "world" ⟨0, 0, 0⟩) (uniformChunk 0 0 1) = Except.ok st1 ∧
      SV_WorldGetChunk [cdnbt_WorldGetChunk (uniformGenerator 0) missingFile] st1
        (SV_CreateWorld id 1 "world" ⟨0, 0, 0⟩) 0 0 (uniformChunk 0 0 3) =
        Except.ok (some c, st2, w2) ∧
      c.blocks 0 = 0 ∧ (uniformChunk 0 0 1).blocks 0 = 1) ∧
    (∃ st1 st2 w2 c,
      SV_WorldSetChunk [cdnbt_WorldSetChunk] (markedStore 3)
        { SV_CreateWorld id 1 "world" ⟨0, 0, 0⟩ with chunks := [("0_0", uniformChunk 0 0 7)] }
        (uniformChunk 0 0 1) = Except.ok st1 ∧
      SV_WorldGetChunk [cdnbt_WorldGetChunk (uniformGenerator 0) missingFile] st1
        { SV_CreateWorld id 1 "world" ⟨0, 0, 0⟩ with chunks := [("0_0", uniformChunk 0 0 7)] }
        0 0 (uniformChunk 0 0 3) = Except.ok (some c, st2, w2) ∧
      c.blocks 0 = 7 ∧ (uniformChunk 0 0 1).blocks 0 = 1) ∧
    (inExtent (-100) (-100) ∧ ∃ st1,
      SV_WorldSetChunk [cdnbt_WorldSetChunk] (markedStore 3)
        (SV_CreateWorld id 1 "world" ⟨0, 0, 0⟩) (uniformChunk (-100) (-100) 1) =
        Except.ok st1 ∧
      SV_WorldGetChunk [cdnbt_WorldGetChunk (uniformGenerator 0) missingFile] st1
        (SV_CreateWorld id 1 "world" ⟨0, 0, 0⟩) (-100) (-100) (uniformChunk 0 0 3) =
        Except.error (Stop.bufferOverflow 10 8)) :=
  ⟨⟨_, _, _, _, rfl, rfl, rfl, rfl⟩, ⟨_, _, _, _, rfl, rfl, rfl, rfl⟩,
    ⟨by decide, _, rfl, rfl⟩⟩

/-- C7 (as amended): for every coordinate (x,z) outside the map extent, `cdnbt_WorldGetChunk`
and `cdnbt_WorldSetChunk` make no bounds check and report no bounds error: each of them indexes
its grid at `[x+100][z+100]`, outside the allocation, where the behaviour is undefined. -/
theorem C7_out_of_extent_unchecked
    (generate : SVWorld → Int → Int → SVChunk → CDError × SVChunk) (file : NbtParse)
    (st : NbtStore) (world : SVWorld) (x z : Int) (chunk : SVChunk) (error : CDError)
    (h : ¬ inExtent x z) :
    cdnbt_WorldGetChunk generate file st world x z chunk error =
        Except.error (Stop.outOfBounds (x + 100) (z + 100)) ∧
      cdnbt_WorldSetChunk st world x z chunk =
        Except.error (Stop.outOfBounds (x + 100) (z + 100)) := by
  have hidx := gridIndex_outside x z h
  constructor
  · unfold cdnbt_WorldGetChunk
    rw [hidx]
  · unfold cdnbt_WorldSetChunk
    rw [hidx]

/-- Witness of C7 (as amended): the coordinate (-101, 5). -/
theorem C7_out_of_extent_unchecked_witness :
    ¬ inExtent (-101) 5 ∧
    cdnbt_WorldGetChunk failingGenerator missingFile (uniformStore 0)
        (SV_CreateWorld id 1 "world" ⟨0, 0, 0⟩) (-101) 5 (uniformChunk 0 0 0) CDOk =
        Except.error (Stop.outOfBounds (-101 + 100) (5 + 100)) ∧
      cdnbt_WorldSetChunk (uniformStore 0) (SV_CreateWorld id 1 "world" ⟨0, 0, 0⟩) (-101) 5
        (uniformChunk 0 0 0) = Except.error (Stop.outOfBounds (-101 + 100) (5 + 100)) :=
  ⟨by decide, C7_out_of_extent_unchecked failingGenerator missingFile (uniformStore 0)
    (SV_CreateWorld id 1 "world" ⟨0, 0, 0⟩) (-101) 5 (uniformChunk 0 0 0) CDOk (by decide)⟩

/-- C7 (counterexample): at the coordinate (400, 0), outside the extent, neither handler returns
with a bounds error: the set handler indexes `chunks[500][100]` and the get handler, for a
missing chunk file, `chunk_generated[500][100]`. -/
theorem C7_no_bounds_error :
    ¬ inExtent 400 0 ∧
    cdnbt_WorldSetChunk (uniformStore 0) (SV_CreateWorld id 1 "world" ⟨0, 0, 0⟩) 400 0
      (uniformChunk 400 0 1) = Except.error (Stop.outOfBounds 500 100) ∧
    cdnbt_WorldGetChunk (uniformGenerator 0) missingFile (uniformStore 0)
      (SV_CreateWorld id 1 "world" ⟨0, 0, 0⟩) 400 0 (uniformChunk 0 0 0) CDOk =
      Except.error (Stop.outOfBounds 500 100) :=
  ⟨by decide, rfl, rfl⟩

/-- C8 (as amended): for a coordinate inside the extent whose key `x_z` has at most 7
characters, that has no valid chunk file, whose key is not in the chunk cache of the world and
which is not marked in the generated grid, a first
`SV_WorldGetChunk` whose generator succeeds invokes the generator exactly once; a second
`SV_WorldGetChunk` for the same coordinate, whatever the chunk file then holds, returns the same
chunk and leaves the plugin state, the generator count included, and the world as they were. -/
theorem C8_generated_once (generate : SVWorld → Int → Int → SVChunk → CDError × SVChunk)
    (file1 file2 : NbtParse) (st : NbtStore) (world : SVWorld) (x z : Int)
    (fresh1 fresh2 : SVChunk)
    (hext : inExtent x z) (hkey : (chunkKey x z).length ≤ 7)
    (hfile : chunkFileRejected file1 = true)
    (hcache : CD_HashHasKey world.chunks (chunkKey x z) = false)
    (hgrid : st.chunk_generated (x + 100).toNat (z + 100).toNat ≠ 1)
    (hgen : (generate world x z fresh1).1 = CDOk) :
    ∃ c st1 w1,
      SV_WorldGetChunk [cdnbt_WorldGetChunk generate file1] st world x z fresh1 =
        Except.ok (some c, st1, w1) ∧
      c = (generate world x z fresh1).2 ∧
      st1.generatorCalls = st.generatorCalls + 1 ∧
      SV_WorldGetChunk [cdnbt_WorldGetChunk generate file2] st1 w1 x z fresh2 =
        Except.ok (some c, st1, w1) := by
  refine ⟨(generate world x z fresh1).2,
    { st with
      chunk_generated := gridSet st.chunk_generated (x + 100).toNat (z + 100).toNat 1
      generatorCalls := st.generatorCalls + 1 },
    { world with
      chunks := CD_HashPut world.chunks (chunkKey x z) (generate world x z fresh1).2 },
    ?_, rfl, rfl, ?_⟩
  · have hfit : ¬ 8 < (chunkKey x z).length + 1 := by omega
    simp [SV_WorldGetChunk, hfit, hcache, CD_EventDispatchWithError, dispatchQueryFrom,
      cdnbt_WorldGetChunk, gridIndex_inExtent x z hext, hfile, hgrid, hgen, CDOk]
  · have hfit : ¬ 8 < (chunkKey x z).length + 1 := by omega
    have hhit : CD_HashHasKey
        (CD_HashPut world.chunks (chunkKey x z) (generate world x z fresh1).2)
        (chunkKey x z) = true :=
      (CD_HashHasKey_put _ _ _ _).mpr (Or.inl rfl)
    simp [SV_WorldGetChunk, hfit, hhit, CD_HashGet_put_self]

/-- Witness of C8 (as amended): the chunk at (0,0) of a fresh world is asked for twice while its file is
missing. -/
theorem C8_generated_once_witness :
    inExtent 0 0 ∧ (chunkKey 0 0).length ≤ 7 ∧ chunkFileRejected missingFile = true ∧
    CD_HashHasKey (SV_CreateWorld id 1 "world" ⟨0, 0, 0⟩).chunks (chunkKey 0 0) = false ∧
    (uniformStore 3).chunk_generated ((0 : Int) + 100).toNat ((0 : Int) + 100).toNat ≠ 1 ∧
    (uniformGenerator 4 (SV_CreateWorld id 1 "world" ⟨0, 0, 0⟩) 0 0 (uniformChunk 0 0 0)).1 =
      CDOk ∧
    ∃ c st1 w1,
      SV_WorldGetChunk [cdnbt_WorldGetChunk (uniformGenerator 4) missingFile] (uniformStore 3)
        (SV_CreateWorld id 1 "world" ⟨0, 0, 0⟩) 0 0 (uniformChunk 0 0 0) =
        Except.ok (some c, st1, w1) ∧
      c = (uniformGenerator 4 (SV_CreateWorld id 1 "world" ⟨0, 0, 0⟩) 0 0
        (uniformChunk 0 0 0)).2 ∧
      st1.generatorCalls = (uniformStore 3).generatorCalls + 1 ∧
      SV_WorldGetChunk [cdnbt_WorldGetChunk (uniformGenerator 4) missingFile] st1 w1 0 0
        (uniformChunk 0 0 0) = Except.ok (some c, st1, w1) :=
  ⟨by decide, by decide, rfl, rfl, by decide, rfl,
    C8_generated_once (uniformGenerator 4) missingFile missingFile (uniformStore 3)
      (SV_CreateWorld id 1 "world" ⟨0, 0, 0⟩) 0 0 (uniformChunk 0 0 0) (uniformChunk 0 0 0)
      (by decide) (by decide) rfl rfl (by decide) rfl⟩

/-- C8 (counterexample): the coordinates (400, 0) and (-100,-100) have no chunk file, are not
in the chunk cache and no cell of the generated grid is marked, the generator would succeed,
yet the first `SV_WorldGetChunk` returns no chunk. For (400, 0) the handler reads
`chunk_generated[500][100]`, outside the 500 by 500 allocation, before the generator could be
invoked; for (-100,-100), inside the extent, the key does not fit the 8-byte buffer. -/
theorem C8_outside_extent_no_chunk :
    chunkFileRejected missingFile = true ∧
    CD_HashHasKey (SV_CreateWorld id 1 "world" ⟨0, 0, 0⟩).chunks (chunkKey 400 0) = false ∧
    CD_HashHasKey (SV_CreateWorld id 1 "world" ⟨0, 0, 0⟩).chunks (chunkKey (-100) (-100)) =
      false ∧
    (∀ i j, (uniformStore 0).chunk_generated i j ≠ 1) ∧
    (∀ x z, (uniformGenerator 0 (SV_CreateWorld id 1 "world" ⟨0, 0, 0⟩) x z
      (uniformChunk 0 0 0)).1 = CDOk) ∧
    SV_WorldGetChunk [cdnbt_WorldGetChunk (uniformGenerator 0) missingFile] (uniformStore 0)
      (SV_CreateWorld id 1 "world" ⟨0, 0, 0⟩) 400 0 (uniformChunk 0 0 0) =
      Except.error (Stop.outOfBounds 500 100) ∧
    inExtent (-100) (-100) ∧
    SV_WorldGetChunk [cdnbt_WorldGetChunk (uniformGenerator 0) missingFile] (uniformStore 0)
      (SV_CreateWorld id 1 "world" ⟨0, 0, 0⟩) (-100) (-100) (uniformChunk 0 0 0) =
      Except.error (Stop.bufferOverflow 10 8) :=
  ⟨rfl, rfl, rfl, fun _ _ => Nat.zero_ne_one, fun _ _ => rfl, rfl, by decide, rfl⟩

/-- What `SV_WorldGetChunk` does for a key that fits its buffer. When the key of (x,z) is in the
chunk cache, the cached chunk is returned whatever handlers are bound to `World.chunk`, and
their state and the world are unchanged (nothing is dispatched). Otherwise the result is that of
the dispatch: on status `CDOk` the out-chunk is returned and put into the cache under the key of
(x,z); on any other status the result is `NULL` and the world, its chunk cache included, is
unchanged. -/
theorem SV_WorldGetChunk_cache_or_dispatch {σ : Type} (handlers : List (ChunkQueryHandler σ))
    (st : σ) (self : SVWorld) (x z : Int) (fresh : SVChunk)
    (hfits : (chunkKey x z).length ≤ 7) :
    (CD_HashHasKey self.chunks (chunkKey x z) = true →
      ∃ c, CD_HashGet self.chunks (chunkKey x z) = some c ∧
        ∀ (others : List (ChunkQueryHandler σ)),
          SV_WorldGetChunk others st self x z fresh = Except.ok (some c, st, self)) ∧
    (CD_HashHasKey self.chunks (chunkKey x z) = false →
      ∀ status st1 result,
        CD_EventDispatchWithError handlers st self x z fresh = Except.ok (status, st1, result) →
        (status = CDOk →
          ∃ w1, SV_WorldGetChunk handlers st self x z fresh = Except.ok (some result, st1, w1) ∧
            CD_HashGet w1.chunks (chunkKey x z) = some result ∧
            CD_HashHasKey w1.chunks (chunkKey x z) = true) ∧
        (status ≠ CDOk →
          SV_WorldGetChunk handlers st self x z fresh = Except.ok (none, st1, self))) := by
  have hfit : ¬ 8 < (chunkKey x z).length + 1 := by omega
  constructor
  · intro hkey
    obtain ⟨c, hc⟩ := (CD_HashHasKey_iff _ _).mp hkey
    have hget : ∃ c, CD_HashGet self.chunks (chunkKey x z) = some c := by
      unfold CD_HashGet
      cases hf : List.find? (fun e => e.1 == chunkKey x z) self.chunks with
      | some e => exact ⟨e.2, rfl⟩
      | none =>
        have := List.find?_eq_none.mp hf (chunkKey x z, c) hc
        simp at this
    obtain ⟨c1, hc1⟩ := hget
    refine ⟨c1, hc1, ?_⟩
    intro others
    simp [SV_WorldGetChunk, hfit, hkey, hc1]
  · intro hkey status st1 result hd
    constructor
    · intro hs
      refine ⟨{ self with chunks := CD_HashPut self.chunks (chunkKey x z) result }, ?_,
        CD_HashGet_put_self _ _ _, (CD_HashHasKey_put _ _ _ _).mpr (Or.inl rfl)⟩
      simp [SV_WorldGetChunk, hfit, hkey, hd, hs]
    · intro hs
      simp [SV_WorldGetChunk, hfit, hkey, hd, hs]

/-- C9 (the code at the failing input): for the coordinate (-100,-100), inside the extent,
`SV_WorldGetChunk` neither returns the cached chunk nor dispatches `World.chunk`, whatever the
world, its chunk cache and the bound handlers: `sprintf` writes the 9 characters of the key
`-100_-100` and the terminating zero into `char buffer[8]`. -/
theorem C9_key_overflows_buffer :
    inExtent (-100) (-100) ∧ chunkKey (-100) (-100) = "-100_-100" ∧
    ∀ (handlers : List (ChunkQueryHandler NbtStore)) (st : NbtStore) (self : SVWorld)
      (fresh : SVChunk),
      SV_WorldGetChunk handlers st self (-100) (-100) fresh =
        Except.error (Stop.bufferOverflow 10 8) :=
  ⟨by decide, by decide, fun _ _ _ _ => rfl⟩

/-- C10: for every coordinate inside the extent, `cdnbt_WorldGetChunk` returns true, and it sets
`*error` if and only if the chunk file fails to parse or validate, the coordinate is not marked
in the generated grid and the generator fails; in that case alone `*error` differs from its
value on entry. When the file is rejected, the coordinate not marked and the generator
succeeds, the coordinate is marked as generated afterwards. -/
theorem C10_getChunk_error_iff (generate : SVWorld → Int → Int → SVChunk → CDError × SVChunk)
    (file : NbtParse) (st : NbtStore) (world : SVWorld) (x z : Int) (chunk : SVChunk)
    (hext : inExtent x z) :
    ∃ st1 c1 e1,
      cdnbt_WorldGetChunk generate file st world x z chunk CDOk =
        Except.ok (true, st1, c1, e1) ∧
      (e1 ≠ CDOk ↔
        (chunkFileRejected file = true ∧
          st.chunk_generated (x + 100).toNat (z + 100).toNat ≠ 1 ∧
          (generate world x z chunk).1 ≠ CDOk)) ∧
      (chunkFileRejected file = true →
        st.chunk_generated (x + 100).toNat (z + 100).toNat ≠ 1 →
        (generate world x z chunk).1 = CDOk →
        st1.chunk_generated (x + 100).toNat (z + 100).toNat = 1) := by
  by_cases hcond : chunkFileRejected file = true ∧
      st.chunk_generated (x + 100).toNat (z + 100).toNat ≠ 1
  · obtain ⟨h1, h2⟩ := hcond
    by_cases hg : (generate world x z chunk).1 = CDOk
    · refine ⟨{ st with
          chunk_generated := gridSet st.chunk_generated (x + 100).toNat (z + 100).toNat 1
          generatorCalls := st.generatorCalls + 1 },
        (generate world x z chunk).2, CDOk, ?_, ?_, ?_⟩
      · simp [cdnbt_WorldGetChunk, gridIndex_inExtent x z hext, h1, h2, hg]
      · simp [hg]
      · intro _ _ _
        simp [gridSet]
    · refine ⟨{ st with generatorCalls := st.generatorCalls + 1 },
        (generate world x z chunk).2, 1, ?_, ?_, ?_⟩
      · simp [cdnbt_WorldGetChunk, gridIndex_inExtent x z hext, h1, h2, hg]
      · have hne : (1 : CDError) ≠ CDOk := by decide
        simp [h1, h2, hg, hne]
      · intro _ _ h
        exact absurd h hg
  · refine ⟨st, copyChunkBuffers chunk (st.chunks (x + 100).toNat (z + 100).toNat), CDOk,
      ?_, ?_, ?_⟩
    · have : (chunkFileRejected file &&
          !(st.chunk_generated (x + 100).toNat (z + 100).toNat == 1)) = false := by
        rw [not_and_or] at hcond
        rcases hcond with h | h
        · simp [h]
        · simp only [ne_eq, not_not] at h
          simp [h]
      simp [cdnbt_WorldGetChunk, gridIndex_inExtent x z hext, this]
    · constructor
      · intro h
        exact absurd rfl h
      · rintro ⟨h1, h2, _⟩
        exact absurd ⟨h1, h2⟩ hcond
    · intro h1 h2 _
      exact absurd ⟨h1, h2⟩ hcond

/-- Witness of C10: the chunk at (2,2) has no file, is not marked and the generator fails. -/
theorem C10_getChunk_error_iff_witness :
    inExtent 2 2 ∧
    ∃ st1 c1 e1,
      cdnbt_WorldGetChunk failingGenerator missingFile (uniformStore 0)
        (SV_CreateWorld id 1 "world" ⟨0, 0, 0⟩) 2 2 (uniformChunk 0 0 0) CDOk =
        Except.ok (true, st1, c1, e1) ∧
      (e1 ≠ CDOk ↔
        (chunkFileRejected missingFile = true ∧
          (uniformStore 0).chunk_generated ((2 : Int) + 100).toNat ((2 : Int) + 100).toNat ≠ 1 ∧
          (failingGenerator (SV_CreateWorld id 1 "world" ⟨0, 0, 0⟩) 2 2
            (uniformChunk 0 0 0)).1 ≠ CDOk)) ∧
      (chunkFileRejected missingFile = true →
        (uniformStore 0).chunk_generated ((2 : Int) + 100).toNat ((2 : Int) + 100).toNat ≠ 1 →
        (failingGenerator (SV_CreateWorld id 1 "world" ⟨0, 0, 0⟩) 2 2
          (uniformChunk 0 0 0)).1 = CDOk →
        st1.chunk_generated ((2 : Int) + 100).toNat ((2 : Int) + 100).toNat = 1) :=
  ⟨by decide, C10_getChunk_error_iff failingGenerator missingFile (uniformStore 0)
    (SV_CreateWorld id 1 "world" ⟨0, 0, 0⟩) 2 2 (uniformChunk 0 0 0) (by decide)⟩

/-! # Properties of world creation and world time -/

theorem toUInt16_lt (v : Int) : toUInt16 v < 65536 := by
  unfold toUInt16
  omega

theorem toUInt16_of_range (v : Int) (h1 : 0 ≤ v) (h2 : v ≤ 65535) : (toUInt16 v : Int) = v := by
  unfold toUInt16
  omega

theorem cdnbt_WorldCreate_rejected (mapgenLevel : SVWorld → CDError × SVWorld) (file : NbtParse)
    (world : SVWorld) (h : levelFileRejected file = true) :
    cdnbt_WorldCreate mapgenLevel file world = Except.ok (true, (mapgenLevel world).2) := by
  unfold levelFileRejected at h
  unfold cdnbt_WorldCreate
  cases hr : file.root with
  | none => rfl
  | some root =>
    rw [hr] at h
    simp only at h
    simp only [h, if_true]

theorem cdnbt_WorldCreate_accepted (mapgenLevel : SVWorld → CDError × SVWorld) (root : NbtNode)
    (world : SVWorld) (h : cdnbt_ValidLevel root = true) :
    cdnbt_WorldCreate mapgenLevel ⟨some root, NBT_OK⟩ world =
      match hydrateWorld root world with
      | Except.error e => Except.error e
      | Except.ok w => Except.ok (true, w) := by
  simp [cdnbt_WorldCreate, h]

theorem hasDataInt_payload (root : NbtNode) (name : String) (h : hasDataInt root name = true) :
    ∃ v, payloadTagInt (nbt_find_by_path root ["Data", name]) = Except.ok v := by
  unfold hasDataInt at h
  split at h
  · next n v heq => exact ⟨v, by rw [heq]; rfl⟩
  · exact absurd h Bool.false_ne_true

theorem hasDataLong_payload (root : NbtNode) (name : String) (h : hasDataLong root name = true) :
    ∃ v, payloadTagLong (nbt_find_by_path root ["Data", name]) = Except.ok v := by
  unfold hasDataLong at h
  split at h
  · next n v heq => exact ⟨v, by rw [heq]; rfl⟩
  · exact absurd h Bool.false_ne_true

theorem hydrateWorld_time (root : NbtNode) (world w : SVWorld)
    (h : hydrateWorld root world = Except.ok w) : w.time < 65536 := by
  unfold hydrateWorld at h
  split at h
  · simp only [Except.ok.injEq] at h
    rw [← h]
    exact toUInt16_lt _
  · simp at h

/-- What a returning `cdnbt_WorldCreate` did to the time of the world: it is the time the
`Mapgen.level` handlers left, or a value converted to `uint16_t`. -/
theorem cdnbt_WorldCreate_time (mapgenLevel : SVWorld → CDError × SVWorld) (file : NbtParse)
    (world w : SVWorld) (b : Bool)
    (h : cdnbt_WorldCreate mapgenLevel file world = Except.ok (b, w)) :
    w.time = (mapgenLevel world).2.time ∨ w.time < 65536 := by
  unfold cdnbt_WorldCreate at h
  cases hr : file.root with
  | none =>
    simp only [hr, Except.ok.injEq, Prod.mk.injEq] at h
    exact Or.inl (h.2 ▸ rfl)
  | some root =>
    simp only [hr] at h
    by_cases hc : (file.errno != NBT_OK || !cdnbt_ValidLevel root) = true
    · simp only [hc, if_true, Except.ok.injEq, Prod.mk.injEq] at h
      exact Or.inl (h.2 ▸ rfl)
    · simp only [hc, if_false] at h
      cases hh : hydrateWorld root world with
      | error e => simp [hh] at h
      | ok w1 =>
        simp only [hh, Bool.false_eq_true, if_false, Except.ok.injEq, Prod.mk.injEq] at h
        right
        rw [← h.2]
        exact hydrateWorld_time root world w1 hh

/-- C11 (the code at the failing input): `level.dat` of the world is absent, no handler is bound
to `Mapgen.level`, and the block `CD_malloc` returned for the world holds (5,6,7) where the
spawn position lies. `cdnbt_WorldCreate` reports success and the time of the world is 0, but the
spawn position is (5,6,7): no statement of `SV_CreateWorld` or of the handler assigns it. -/
theorem C11_spawn_left_unassigned :
    levelFileRejected missingFile = true ∧
    ∃ w, cdnbt_WorldCreate noHandler missingFile (SV_CreateWorld id 1 "world" ⟨5, 6, 7⟩) =
        Except.ok (true, w) ∧
      createWorldNbt noHandler missingFile 1 "world" ⟨5, 6, 7⟩ = Except.ok w ∧
      SV_WorldGetTime w = 0 ∧
      w.spawnPosition = ⟨5, 6, 7⟩ ∧ w.spawnPosition ≠ ⟨0, 0, 0⟩ :=
  ⟨rfl, _, rfl, rfl, rfl, rfl, by decide⟩

/-- For every rejected `level.dat` and every `Mapgen.level` dispatch that leaves the world alone,
world creation succeeds with time 0 and with the spawn position the allocation held. -/
theorem createWorldNbt_rejected (mapgenLevel : SVWorld → CDError × SVWorld) (file : NbtParse)
    (addr : Nat) (name : String) (uninit : SVBlockPosition)
    (hfile : levelFileRejected file = true) (hmap : ∀ w, (mapgenLevel w).2 = w) :
    ∃ w, createWorldNbt mapgenLevel file addr name uninit = Except.ok w ∧
      cdnbt_WorldCreate mapgenLevel file (SV_CreateWorld id addr name uninit) =
        Except.ok (true, w) ∧
      SV_WorldGetTime w = 0 ∧ w.spawnPosition = uninit := by
  have h := cdnbt_WorldCreate_rejected mapgenLevel file (SV_CreateWorld id addr name uninit) hfile
  rw [hmap] at h
  refine ⟨SV_CreateWorld id addr name uninit, ?_, h, rfl, rfl⟩
  simp [createWorldNbt, h]

/-- C12 (as amended): for every valid level tree, after `cdnbt_WorldCreate` the spawn position
of the world is (SpawnX, SpawnY, SpawnZ) and `SV_WorldGetTime` returns the value of the Time tag
modulo 2^16; it returns the value of the tag itself when that lies in 0..65535. -/
theorem C12_hydrated_spawn_and_time (mapgenLevel : SVWorld → CDError × SVWorld)
    (root : NbtNode) (world : SVWorld) (hvalid : cdnbt_ValidLevel root = true) :
    ∃ x y z t w,
      payloadTagInt (nbt_find_by_path root ["Data", "SpawnX"]) = Except.ok x ∧
      payloadTagInt (nbt_find_by_path root ["Data", "SpawnY"]) = Except.ok y ∧
      payloadTagInt (nbt_find_by_path root ["Data", "SpawnZ"]) = Except.ok z ∧
      payloadTagLong (nbt_find_by_path root ["Data", "Time"]) = Except.ok t ∧
      cdnbt_WorldCreate mapgenLevel ⟨some root, NBT_OK⟩ world = Except.ok (true, w) ∧
      w.spawnPosition = ⟨x, y, z⟩ ∧
      (SV_WorldGetTime w : Int) = t % 65536 ∧
      (0 ≤ t → t ≤ 65535 → (SV_WorldGetTime w : Int) = t) := by
  have hv := hvalid
  simp only [cdnbt_ValidLevel, Bool.and_eq_true] at hv
  obtain ⟨⟨⟨hx, hy⟩, hz⟩, ht⟩ := hv
  obtain ⟨x, ex⟩ := hasDataInt_payload root _ hx
  obtain ⟨y, ey⟩ := hasDataInt_payload root _ hy
  obtain ⟨z, ez⟩ := hasDataInt_payload root _ hz
  obtain ⟨t, et⟩ := hasDataLong_payload root _ ht
  refine ⟨x, y, z, t, (SV_WorldSetTime { world with spawnPosition := ⟨x, y, z⟩ } t).2,
    ex, ey, ez, et, ?_, rfl, ?_, ?_⟩
  · rw [cdnbt_WorldCreate_accepted mapgenLevel root world hvalid]
    simp [hydrateWorld, ex, ey, ez, et]
  · show ((toUInt16 t : Nat) : Int) = t % 65536
    unfold toUInt16
    omega
  · intro h1 h2
    exact toUInt16_of_range t h1 h2

/-- Witness of C12 (as amended): a level with spawn (1,64,-3) and time 12000. -/
theorem C12_hydrated_spawn_and_time_witness :
    cdnbt_ValidLevel (levelTree 1 64 (-3) 12000) = true ∧
    ∃ x y z t w,
      payloadTagInt (nbt_find_by_path (levelTree 1 64 (-3) 12000) ["Data", "SpawnX"]) =
        Except.ok x ∧
      payloadTagInt (nbt_find_by_path (levelTree 1 64 (-3) 12000) ["Data", "SpawnY"]) =
        Except.ok y ∧
      payloadTagInt (nbt_find_by_path (levelTree 1 64 (-3) 12000) ["Data", "SpawnZ"]) =
        Except.ok z ∧
      payloadTagLong (nbt_find_by_path (levelTree 1 64 (-3) 12000) ["Data", "Time"]) =
        Except.ok t ∧
      cdnbt_WorldCreate noHandler ⟨some (levelTree 1 64 (-3) 12000), NBT_OK⟩
        (SV_CreateWorld id 1 "world" ⟨5, 6, 7⟩) = Except.ok (true, w) ∧
      w.spawnPosition = ⟨x, y, z⟩ ∧
      (SV_WorldGetTime w : Int) = t % 65536 ∧
      (0 ≤ t → t ≤ 65535 → (SV_WorldGetTime w : Int) = t) :=
  ⟨by decide, C12_hydrated_spawn_and_time noHandler (levelTree 1 64 (-3) 12000)
    (SV_CreateWorld id 1 "world" ⟨5, 6, 7⟩) (by decide)⟩

/-- C12 (counterexample): for the valid level with Time = 100000, `SV_WorldGetTime` returns
34464 after `cdnbt_WorldCreate`: the 64-bit value was converted to the `uint16_t` parameter of
`SV_WorldSetTime`. -/
theorem C12_time_truncated :
    cdnbt_ValidLevel (levelTree 1 64 (-3) 100000) = true ∧
    payloadTagLong (nbt_find_by_path (levelTree 1 64 (-3) 100000) ["Data", "Time"]) =
      Except.ok 100000 ∧
    ∃ w, cdnbt_WorldCreate noHandler ⟨some (levelTree 1 64 (-3) 100000), NBT_OK⟩
        (SV_CreateWorld id 1 "world" ⟨5, 6, 7⟩) = Except.ok (true, w) ∧
      w.spawnPosition = ⟨1, 64, -3⟩ ∧
      SV_WorldGetTime w = 34464 :=
  ⟨by decide, rfl, _, rfl, rfl, by decide⟩

theorem timeRun_time (mapgenLevel : SVWorld → CDError × SVWorld)
    (hmap : ∀ w, w.time < 65536 → (mapgenLevel w).2.time < 65536) :
    ∀ (cs : List TimeCall) (world w : SVWorld), world.time < 65536 →
      timeRun mapgenLevel cs world = Except.ok w → w.time < 65536 := by
  intro cs
  induction cs with
  | nil =>
    intro world w h hrun
    simp only [timeRun, Except.ok.injEq] at hrun
    exact hrun ▸ h
  | cons c cs ih =>
    intro world w h hrun
    rw [timeRun] at hrun
    cases hstep : timeStep mapgenLevel world c with
    | error e => simp [hstep] at hrun
    | ok w1 =>
      simp only [hstep] at hrun
      refine ih w1 w ?_ hrun
      cases c with
      | setTime t =>
        simp only [timeStep, Except.ok.injEq] at hstep
        rw [← hstep]
        exact toUInt16_lt t
      | hydrate file =>
        simp only [timeStep] at hstep
        cases hc : cdnbt_WorldCreate mapgenLevel file world with
        | error e => simp [hc] at hstep
        | ok r =>
          obtain ⟨b, w2⟩ := r
          simp only [hc, Except.ok.injEq] at hstep
          subst hstep
          rcases cdnbt_WorldCreate_time mapgenLevel file world w2 b hc with e | e
          · rw [e]
            exact hmap world h
          · exact e

/-- The outcome of `cdnbt_WorldCreate`: it returns true, and the time of the world is the one
the `Mapgen.level` handlers left when the file is rejected, and the Time tag converted to
`uint16_t` when the file is accepted. -/
theorem cdnbt_WorldCreate_outcome (mapgenLevel : SVWorld → CDError × SVWorld) (file : NbtParse)
    (world : SVWorld) :
    ∃ w, cdnbt_WorldCreate mapgenLevel file world = Except.ok (true, w) ∧
      ((acceptedLevelTime file = none ∧ w.time = (mapgenLevel world).2.time) ∨
        ∃ t, acceptedLevelTime file = some t ∧ w.time = toUInt16 t) := by
  unfold cdnbt_WorldCreate acceptedLevelTime
  cases hr : file.root with
  | none => exact ⟨_, rfl, Or.inl ⟨rfl, rfl⟩⟩
  | some root =>
    by_cases hc : (file.errno != NBT_OK || !cdnbt_ValidLevel root) = true
    · simp only [hc, if_true]
      exact ⟨_, rfl, Or.inl ⟨trivial, rfl⟩⟩
    · have hv : cdnbt_ValidLevel root = true := by
        cases hb : cdnbt_ValidLevel root with
        | true => rfl
        | false => simp [hb] at hc
      have hv2 := hv
      simp only [cdnbt_ValidLevel, Bool.and_eq_true] at hv2
      obtain ⟨⟨⟨hx, hy⟩, hz⟩, ht⟩ := hv2
      obtain ⟨x, ex⟩ := hasDataInt_payload root _ hx
      obtain ⟨y, ey⟩ := hasDataInt_payload root _ hy
      obtain ⟨z, ez⟩ := hasDataInt_payload root _ hz
      obtain ⟨t, et⟩ := hasDataLong_payload root _ ht
      simp only [hc, Bool.false_eq_true, if_false, hydrateWorld, ex, ey, ez, et]
      exact ⟨_, rfl, Or.inr ⟨t, rfl, rfl⟩⟩

theorem timeRun_day (mapgenLevel : SVWorld → CDError × SVWorld)
    (hmap : ∀ w0, w0.time ≤ 23999 → (mapgenLevel w0).2.time ≤ 23999) :
    ∀ (cs : List TimeCall) (world : SVWorld), world.time ≤ 23999 →
      (∀ c ∈ cs, timeCallInDay c = true) →
      ∃ w, timeRun mapgenLevel cs world = Except.ok w ∧ w.time ≤ 23999 := by
  intro cs
  induction cs with
  | nil =>
    intro world h _
    exact ⟨world, rfl, h⟩
  | cons c cs ih =>
    intro world h hday
    have hc := hday c (List.mem_cons_self _ _)
    have hrest : ∀ c1 ∈ cs, timeCallInDay c1 = true :=
      fun c1 h1 => hday c1 (List.mem_cons_of_mem _ h1)
    have hstep : ∃ w1, timeStep mapgenLevel world c = Except.ok w1 ∧ w1.time ≤ 23999 := by
      cases c with
      | setTime t =>
        refine ⟨_, rfl, ?_⟩
        simpa [timeCallInDay] using hc
      | hydrate file =>
        obtain ⟨w1, hrun, hcase⟩ := cdnbt_WorldCreate_outcome mapgenLevel file world
        refine ⟨w1, by simp only [timeStep, hrun], ?_⟩
        rcases hcase with ⟨_, e⟩ | ⟨t, et, e⟩
        · rw [e]
          exact hmap world h
        · rw [e]
          simpa [timeCallInDay, et] using hc
    obtain ⟨w1, hrun1, h1⟩ := hstep
    obtain ⟨w, hrun, hw⟩ := ih w1 h1 hrest
    exact ⟨w, by simp only [timeRun, hrun1, hrun], hw⟩

/-- C13 (as amended): every sequence of `SV_WorldSetTime` calls whose argument is in 0..23999
and of hydrations by `cdnbt_WorldCreate` from a `level.dat` that is rejected or whose Time tag,
converted to `uint16_t`, is in 0..23999, with `Mapgen.level` handlers that do not take the time
out of 0..23999, leads from `SV_CreateWorld` to a world whose time, as returned by
`SV_WorldGetTime`, lies in 0..23999. -/
theorem C13_time_within_day (mapgenLevel : SVWorld → CDError × SVWorld) (addr : Nat)
    (name : String) (uninit : SVBlockPosition) (cs : List TimeCall)
    (hmap : ∀ w0, w0.time ≤ 23999 → (mapgenLevel w0).2.time ≤ 23999)
    (hday : ∀ c ∈ cs, timeCallInDay c = true) :
    ∃ w, timeRun mapgenLevel cs (SV_CreateWorld id addr name uninit) = Except.ok w ∧
      SV_WorldGetTime w ≤ 23999 :=
  timeRun_day mapgenLevel hmap cs (SV_CreateWorld id addr name uninit)
    (by show (0 : Nat) ≤ 23999; decide) hday

/-- Witness of C13 (as amended): a fresh world is hydrated from a level with time 18000, its
time is set to 23999, and it is hydrated again from an absent `level.dat`. -/
theorem C13_time_within_day_witness :
    (∀ w0 : SVWorld, w0.time ≤ 23999 → (noHandler w0).2.time ≤ 23999) ∧
    (∀ c ∈ [TimeCall.hydrate ⟨some (levelTree 0 0 0 18000), NBT_OK⟩, TimeCall.setTime 23999,
      TimeCall.hydrate missingFile], timeCallInDay c = true) ∧
    ∃ w, timeRun noHandler
        [TimeCall.hydrate ⟨some (levelTree 0 0 0 18000), NBT_OK⟩, TimeCall.setTime 23999,
          TimeCall.hydrate missingFile]
        (SV_CreateWorld id 1 "world" ⟨5, 6, 7⟩) = Except.ok w ∧
      SV_WorldGetTime w ≤ 23999 :=
  ⟨fun _ h => h, by decide,
    C13_time_within_day noHandler 1 "world" ⟨5, 6, 7⟩
      [TimeCall.hydrate ⟨some (levelTree 0 0 0 18000), NBT_OK⟩, TimeCall.setTime 23999,
        TimeCall.hydrate missingFile] (fun _ h => h)
      (by decide)⟩

/-- C13 (counterexample): on a fresh world, `SV_WorldGetTime` returns 30000 after
`SV_WorldSetTime(world, 30000)`, 40000 after hydration from a level with Time = 40000, and
30000 after hydration from an absent `level.dat` when a `Mapgen.level` handler sets the time to
30000: all lie outside 0..23999. -/
theorem C13_time_exceeds_day :
    (∃ w, timeRun noHandler [TimeCall.setTime 30000] (SV_CreateWorld id 1 "world" ⟨5, 6, 7⟩) =
        Except.ok w ∧ SV_WorldGetTime w = 30000) ∧
    (∃ w, timeRun noHandler [TimeCall.hydrate ⟨some (levelTree 0 0 0 40000), NBT_OK⟩]
        (SV_CreateWorld id 1 "world" ⟨5, 6, 7⟩) = Except.ok w ∧ SV_WorldGetTime w = 40000) ∧
    (∃ w, timeRun lateHandler [TimeCall.hydrate missingFile]
        (SV_CreateWorld id 1 "world" ⟨5, 6, 7⟩) = Except.ok w ∧ SV_WorldGetTime w = 30000) :=
  ⟨⟨_, rfl, by decide⟩, ⟨_, rfl, by decide⟩, ⟨_, rfl, by decide⟩⟩

/-! # Frame properties -/

/-- C14: for every world and every player p whose world pointer is the world,
`SV_WorldRemovePlayer` returns, the players map afterwards holds exactly the former entries
whose key is not the username of p and the entities map exactly the former entries whose key is
not the entity id of p (so nothing is found under these two keys and every other key is looked
up as before), and every player object, p included, is as it was. -/
theorem C14_removePlayer_frame (st : Registry) (p : Nat)
    (hworld : (st.heap p).world = some st.world.addr) :
    ∃ r, SV_WorldRemovePlayer st p = Except.ok r ∧
      (∀ e, e ∈ r.world.players ↔ e ∈ st.world.players ∧ e.1 ≠ (st.heap p).username) ∧
      (∀ e, e ∈ r.world.entities ↔ e ∈ st.world.entities ∧ e.1 ≠ (st.heap p).entityId) ∧
      CD_HashGet r.world.players (st.heap p).username = none ∧
      CD_MapGet r.world.entities (st.heap p).entityId = none ∧
      (∀ k, k ≠ (st.heap p).username →
        CD_HashGet r.world.players k = CD_HashGet st.world.players k) ∧
      (∀ i, i ≠ (st.heap p).entityId →
        CD_MapGet r.world.entities i = CD_MapGet st.world.entities i) ∧
      r.heap = st.heap ∧ r.heap p = st.heap p := by
  refine ⟨{ st with
      world :=
        { st.world with
          players := CD_HashDelete st.world.players (st.heap p).username
          entities := CD_MapDelete st.world.entities (st.heap p).entityId } },
    ?_, ?_, ?_, ?_, ?_, ?_, ?_, rfl, rfl⟩
  · simp [SV_WorldRemovePlayer, hworld]
  · intro e
    simp [CD_HashDelete, List.mem_filter]
  · intro e
    simp [CD_MapDelete, List.mem_filter]
  · show CD_HashGet (CD_HashDelete st.world.players (st.heap p).username) _ = none
    unfold CD_HashGet CD_HashDelete
    rw [assoc_find_filter_self]
    rfl
  · show CD_MapGet (CD_MapDelete st.world.entities (st.heap p).entityId) _ = none
    unfold CD_MapGet CD_MapDelete
    rw [assoc_find_filter_self]
    rfl
  · intro k hk
    show CD_HashGet (CD_HashDelete st.world.players (st.heap p).username) k = _
    unfold CD_HashGet CD_HashDelete
    rw [assoc_find_filter_other _ _ _ hk]
  · intro i hi
    show CD_MapGet (CD_MapDelete st.world.entities (st.heap p).entityId) i = _
    unfold CD_MapGet CD_MapDelete
    rw [assoc_find_filter_other _ _ _ hi]

/-- Witness of C14: the player at address 1, registered as `alice^1`, is removed from a world
that also holds `alice` and `alice^2`. -/
theorem C14_removePlayer_frame_witness :
    ((crowdedRegistry "alice" 2).heap 1).world = some (crowdedRegistry "alice" 2).world.addr ∧
    ∃ r, SV_WorldRemovePlayer (crowdedRegistry "alice" 2) 1 = Except.ok r ∧
      (∀ e, e ∈ r.world.players ↔ e ∈ (crowdedRegistry "alice" 2).world.players ∧
        e.1 ≠ ((crowdedRegistry "alice" 2).heap 1).username) ∧
      (∀ e, e ∈ r.world.entities ↔ e ∈ (crowdedRegistry "alice" 2).world.entities ∧
        e.1 ≠ ((crowdedRegistry "alice" 2).heap 1).entityId) ∧
      CD_HashGet r.world.players ((crowdedRegistry "alice" 2).heap 1).username = none ∧
      CD_MapGet r.world.entities ((crowdedRegistry "alice" 2).heap 1).entityId = none ∧
      (∀ k, k ≠ ((crowdedRegistry "alice" 2).heap 1).username →
        CD_HashGet r.world.players k = CD_HashGet (crowdedRegistry "alice" 2).world.players k) ∧
      (∀ i, i ≠ ((crowdedRegistry "alice" 2).heap 1).entityId →
        CD_MapGet r.world.entities i =
          CD_MapGet (crowdedRegistry "alice" 2).world.entities i) ∧
      r.heap = (crowdedRegistry "alice" 2).heap ∧
      r.heap 1 = (crowdedRegistry "alice" 2).heap 1 :=
  ⟨by decide, C14_removePlayer_frame (crowdedRegistry "alice" 2) 1 (by decide)⟩

/-- C15: for every coordinate (x,z) inside the extent and every chunk C, `cdnbt_WorldSetChunk`
returns true; afterwards the five buffers of the grid cell `chunks[x+100][z+100]` are byte-equal
to those of C over their full sizes, every other cell of the `chunks` grid and the whole
generated grid are as before, and this is the only outcome of the call. -/
theorem C15_setChunk_whole_payload (st : NbtStore) (world : SVWorld) (x z : Int) (C : SVChunk)
    (hext : inExtent x z) :
    ∃ st1, cdnbt_WorldSetChunk st world x z C = Except.ok (true, st1) ∧
      sameBuffers (st1.chunks (x + 100).toNat (z + 100).toNat) C ∧
      (∀ a b, ¬ (a = (x + 100).toNat ∧ b = (z + 100).toNat) →
        st1.chunks a b = st.chunks a b) ∧
      st1.chunk_generated = st.chunk_generated ∧
      (∀ r, cdnbt_WorldSetChunk st world x z C = Except.ok r → r = (true, st1)) := by
  have hset := cdnbt_WorldSetChunk_inExtent st world x z C hext
  refine ⟨_, hset, ?_, ?_, rfl, ?_⟩
  · show sameBuffers (gridSet st.chunks _ _ _ _ _) C
    simp only [gridSet, and_self, if_true]
    exact sameBuffers_copyChunkBuffers _ _
  · intro a b hab
    show gridSet st.chunks _ _ _ a b = st.chunks a b
    simp only [gridSet, hab, if_false]
  · intro r hr
    rw [hset] at hr
    exact (Except.ok.inj hr).symm

/-- Witness of C15: a chunk of bytes 9 is set at (3,-4). -/
theorem C15_setChunk_whole_payload_witness :
    inExtent 3 (-4) ∧
    ∃ st1, cdnbt_WorldSetChunk (uniformStore 0) (SV_CreateWorld id 1 "world" ⟨0, 0, 0⟩) 3 (-4)
        (uniformChunk 3 (-4) 9) = Except.ok (true, st1) ∧
      sameBuffers (st1.chunks ((3 : Int) + 100).toNat ((-4 : Int) + 100).toNat)
        (uniformChunk 3 (-4) 9) ∧
      (∀ a b, ¬ (a = ((3 : Int) + 100).toNat ∧ b = ((-4 : Int) + 100).toNat) →
        st1.chunks a b = (uniformStore 0).chunks a b) ∧
      st1.chunk_generated = (uniformStore 0).chunk_generated ∧
      (∀ r, cdnbt_WorldSetChunk (uniformStore 0) (SV_CreateWorld id 1 "world" ⟨0, 0, 0⟩) 3 (-4)
        (uniformChunk 3 (-4) 9) = Except.ok r → r = (true, st1)) :=
  ⟨by decide, C15_setChunk_whole_payload (uniformStore 0)
    (SV_CreateWorld id 1 "world" ⟨0, 0, 0⟩) 3 (-4) (uniformChunk 3 (-4) 9) (by decide)⟩

theorem chunkFile_accepted (hm bs d bl sl : List Nat) (h1 : hm.length = 256)
    (h2 : bs.length = 32768) (h3 : d.length = 16384) (h4 : bl.length = 16384)
    (h5 : sl.length = 16384) :
    chunkFileRejected
      { root := some (NbtNode.tagCompound ""
          [NbtNode.tagCompound "Level"
            [NbtNode.tagByteArray "HeightMap" hm, NbtNode.tagByteArray "Blocks" bs,
              NbtNode.tagByteArray "Data" d, NbtNode.tagByteArray "BlockLight" bl,
              NbtNode.tagByteArray "SkyLight" sl]])
        errno := NBT_OK } = false := by
  simp [chunkFileRejected, cdnbt_ValidChunk, hasLevelArray, nbt_find_by_path,
    NbtNode.child, NbtNode.name, h1, h2, h3, h4, h5]

theorem chunkFileWith_accepted (b : Nat) : chunkFileRejected (chunkFileWith b) = false :=
  chunkFile_accepted _ _ _ _ _ (List.length_replicate _ _) (List.length_replicate _ _)
    (List.length_replicate _ _) (List.length_replicate _ _) (List.length_replicate _ _)

/-- C17: for every coordinate (x,z) inside the extent whose chunk file parses and validates,
`cdnbt_WorldGetChunk` returns true with `*error` untouched, the five buffers of the out-chunk are
byte-equal to those of the grid cell `chunks[x+100][z+100]`, the globals of the plugin are
unchanged (the generator is not invoked), and the result is the same for every other valid chunk
file and every generator. -/
theorem C17_getChunk_reads_grid (generate : SVWorld → Int → Int → SVChunk → CDError × SVChunk)
    (file : NbtParse) (st : NbtStore) (world : SVWorld) (x z : Int) (chunk : SVChunk)
    (error : CDError) (hext : inExtent x z) (hfile : chunkFileRejected file = false) :
    ∃ out, cdnbt_WorldGetChunk generate file st world x z chunk error =
        Except.ok (true, st, out, error) ∧
      sameBuffers out (st.chunks (x + 100).toNat (z + 100).toNat) ∧
      out.position = chunk.position ∧
      ∀ (generate2 : SVWorld → Int → Int → SVChunk → CDError × SVChunk) (file2 : NbtParse),
        chunkFileRejected file2 = false →
        cdnbt_WorldGetChunk generate2 file2 st world x z chunk error =
          Except.ok (true, st, out, error) := by
  have hget : ∀ (g : SVWorld → Int → Int → SVChunk → CDError × SVChunk) (f : NbtParse),
      chunkFileRejected f = false →
      cdnbt_WorldGetChunk g f st world x z chunk error =
        Except.ok (true, st,
          copyChunkBuffers chunk (st.chunks (x + 100).toNat (z + 100).toNat), error) := by
    intro g f hf
    simp [cdnbt_WorldGetChunk, gridIndex_inExtent x z hext, hf]
  exact ⟨_, hget generate file hfile, sameBuffers_copyChunkBuffers _ _, rfl,
    fun g f hf => hget g f hf⟩

/-- Witness of C17: the chunk at (3,-4) is read while its file holds bytes 1; a file holding
bytes 2 gives the same out-chunk. -/
theorem C17_getChunk_reads_grid_witness :
    inExtent 3 (-4) ∧ chunkFileRejected (chunkFileWith 1) = false ∧
    ∃ out, cdnbt_WorldGetChunk (uniformGenerator 5) (chunkFileWith 1) (uniformStore 8)
        (SV_CreateWorld id 1 "world" ⟨0, 0, 0⟩) 3 (-4) (uniformChunk 0 0 0) CDOk =
        Except.ok (true, uniformStore 8, out, CDOk) ∧
      sameBuffers out ((uniformStore 8).chunks ((3 : Int) + 100).toNat ((-4 : Int) + 100).toNat) ∧
      out.position = (uniformChunk 0 0 0).position ∧
      ∀ (generate2 : SVWorld → Int → Int → SVChunk → CDError × SVChunk) (file2 : NbtParse),
        chunkFileRejected file2 = false →
        cdnbt_WorldGetChunk generate2 file2 (uniformStore 8)
          (SV_CreateWorld id 1 "world" ⟨0, 0, 0⟩) 3 (-4) (uniformChunk 0 0 0) CDOk =
          Except.ok (true, uniformStore 8, out, CDOk) :=
  ⟨by decide, chunkFileWith_accepted 1,
    C17_getChunk_reads_grid (uniformGenerator 5) (chunkFileWith 1) (uniformStore 8)
      (SV_CreateWorld id 1 "world" ⟨0, 0, 0⟩) 3 (-4) (uniformChunk 0 0 0) CDOk (by decide)
      (chunkFileWith_accepted 1)⟩

/-! # Properties of the configuration file reader -/

/-- The local `storage` of `parseJString` ends up holding the string of the key. -/
theorem parseJString_local (storage s : String) (members : List (String × json_t))
    (key : String) (h : json_object_get (json_t.object members) key = some (json_t.string s)) :
    parseJString storage (json_t.object members) key = Except.ok s := by
  simp [parseJString, h, json_string_value]

/-- With an undefined key `parseJString` returns with its local `storage` as on entry. -/
theorem parseJString_undefined (storage : String) (obj : json_t) (key : String)
    (h : json_object_get obj key = none) :
    parseJString storage obj key = Except.ok storage := by
  simp [parseJString, h]

/-- Whatever strings the file gives for "motd-file" and "static-docroot", the reader returns the
defaults with the game port of the file. -/
theorem craftd_config_parse_discards_strings (s t : String) :
    craftd_config_parse (configFiles (stringsConfig s t)) [] (some "craftd.conf")
        (craftd_config_setdefaults blankSettings) =
      Except.ok { craftd_config_setdefaults blankSettings with game_port := 4000 } := by
  rfl

/-- C16 (code bug): the configuration file
`{"server": {"game-port": 4000, "motd-file": "welcome.txt"}, "httpd": {"static-docroot": "www/"}}`
is read after the defaults were assigned. `craftd_config_parse` returns; the integer setting of
the same section is stored (`game_port` is 4000), but `motd_file` still holds the default
"motd.conf" and not "welcome.txt", and `docroot` still holds "htdocs/" and not "www/". -/
theorem C16_string_settings_not_stored :
    ∃ Config, craftd_config_parse (configFiles (stringsConfig "welcome.txt" "www/")) []
        (some "craftd.conf") (craftd_config_setdefaults blankSettings) = Except.ok Config ∧
      Config.game_port = 4000 ∧
      Config.motd_file = "motd.conf" ∧ Config.motd_file ≠ "welcome.txt" ∧
      Config.docroot = "htdocs/" ∧ Config.docroot ≠ "www/" :=
  ⟨_, rfl, rfl, rfl, by decide, rfl, by decide⟩

end Craftd
